import Mathlib

/-!
# Verification of the calendly-rest-grpc-api authorization core

A shallow embedding of the gRPC service handlers of the repository
(`src/services/*.js`, `src/middleware/auth.js`) as pure Lean functions over an
explicit database state, together with theorems settling the specification
claims about authentication, ownership enforcement, error precedence,
pagination and the availability round-trip.

Conventions of the embedding:
* the SQLite tables become lists of row structures inside `Db`; `SELECT ... WHERE`
  single-row lookups become `List.find?` (first matching row, i.e. lowest rowid),
  `UPDATE`/`DELETE ... WHERE` become `List.map`/`List.filter` plus a `changes`
  count of the matched rows, `INSERT` appends;
* JavaScript values read off a deserialized request are modelled by `JVal`
  (`undefined` / `null` / string / number) so that truthiness tests (`!x`) and
  the strict comparison `x === null` of the handlers translate exactly;
  fields that the proto file declares non-`optional` always arrive as concrete
  values (`defaults: true` in the proto loader) and are modelled by plain
  `String` / `Int`;
* nondeterministic inputs of the source (`Date.now()` ids, `crypto.randomBytes`
  tokens) are passed to the handlers as explicit arguments;
* each handler returns a `Res ρ`: the gRPC outcome, the database after the
  call, and whether a mutating SQL statement (`INSERT`/`UPDATE`/`DELETE`)
  was executed against the store.
-/

namespace CalendlyGrpc

/-- A JavaScript runtime value sitting in a deserialized request field.
`optional` proto fields are absent (`undef`) when the caller did not supply
them; a handler never receives `jnull` from the deserializer, but the
handlers compare against `null` (`===`), so the value space keeps it. -/
inductive JVal where
  | undef : JVal
  | jnull : JVal
  | jstr : String → JVal
  | jnum : Int → JVal
deriving DecidableEq, Repr

/-- JavaScript truthiness of a `JVal` (`undefined`, `null`, `""` and `0` are falsy). -/
def JVal.truthy : JVal → Bool
  | .undef => false
  | .jnull => false
  | .jstr s => s != ""
  | .jnum n => n != 0

/-- The strict JavaScript comparison `x === null`. -/
def JVal.eqNull : JVal → Bool
  | .jnull => true
  | _ => false

/-- The string carried by a (truthy string) `JVal`; `""` for the other shapes. -/
def JVal.asString : JVal → String
  | .jstr s => s
  | _ => ""

/-- A row of the `users` table (`id, name, email, password, timezone, token`);
`timezone` and `token` are nullable columns. -/
structure User where
  id : String
  name : String
  email : String
  password : String
  timezone : Option String
  token : Option String
deriving DecidableEq, Repr

/-- A row of the `events` table; `duration INTEGER NOT NULL`, `description` and
`color` nullable, `userId` the owning account. -/
structure Event where
  id : String
  name : String
  duration : Int
  description : Option String
  color : Option String
  userId : String
deriving DecidableEq, Repr

/-- A row of the `schedules` table; `availability` holds the JSON blob. -/
structure Schedule where
  id : Nat
  userId : String
  availability : String
deriving DecidableEq, Repr

/-- A row of the `appointments` table. -/
structure Appointment where
  id : String
  eventId : String
  userId : String
  inviteeEmail : String
  startTime : String
  endTime : String
  status : String
deriving DecidableEq, Repr

/-- The database: the four tables, in rowid order, plus the AUTOINCREMENT
counter of the `schedules` table. -/
structure Db where
  users : List User
  events : List Event
  schedules : List Schedule
  appointments : List Appointment
  scheduleSeq : Nat
deriving DecidableEq, Repr

/-- The gRPC status codes the services emit. `sqliteConstraint` stands for a
raw sqlite3 error surfaced verbatim by the `if (err.code) return callback(err)`
arms of the handlers (`err.code = 'SQLITE_CONSTRAINT'` is truthy without
being a gRPC status, so the raw error object reaches the caller). -/
inductive Status where
  | invalidArgument
  | unauthenticated
  | permissionDenied
  | notFound
  | alreadyExists
  | internal
  | sqliteConstraint
deriving DecidableEq, Repr

/-- Outcome of one handler call: the gRPC result, the database afterwards, and
whether a mutating SQL statement was executed against the store. -/
structure Res (ρ : Type) where
  out : Except Status ρ
  db : Db
  wrote : Bool

/-- JavaScript `header.split(' ')`: split a character list at every single
space, keeping empty components (so `"a  b"` yields `["a", "", "b"]` and the
empty string yields `[""]`, exactly as in JavaScript). -/
def splitSpace : List Char → List (List Char)
  | [] => [[]]
  | c :: cs =>
    match splitSpace cs with
    | [] => [[]]
    | h :: t => if c = ' ' then [] :: h :: t else (c :: h) :: t

/-- Token extraction of `authenticate` (src/middleware/auth.js):
`metadata.get('authorization')[0].split(' ')[1]`. A missing header makes the
`.split` call throw (`[0]` is `undefined`); a missing or empty second
component fails the `if (!token)` guard. All of these end in the same
`UNAUTHENTICATED` rejection, so the extraction is modelled as `Option`. -/
def extractToken (header : Option String) : Option String :=
  match header with
  | none => none
  | some h =>
    match (splitSpace h.toList)[1]? with
    | none => none
    | some t => if t = [] then none else some (String.mk t)

/-- `authenticate` (src/middleware/auth.js): extract the bearer token and look
up `SELECT * FROM users WHERE token = ?`; any failure is UNAUTHENTICATED,
modelled as `none`. -/
def authenticate (db : Db) (header : Option String) : Option User :=
  match extractToken header with
  | none => none
  | some t => db.users.find? (fun u => u.token = some t)

/-- Modelled from the spec: `isValidEmail` lives in `src/utils/validators.js`,
which is not among the provided sources; the spec says only that a malformed
email is rejected as "bad email format". Modelled as requiring an `@`.
No claim depends on the exact predicate, only on where the handlers call it. -/
def isValidEmail (s : String) : Bool :=
  s.toList.contains '@'

/-- Modelled from the spec: `isValidHexColor` lives in `src/utils/validators.js`,
which is not among the provided sources; the spec requires a
"hex-color-with-leading-# pattern" such as `#FF0000`. No claim depends on the
exact predicate, only on where the handlers call it. -/
def isValidHexColor (s : String) : Bool :=
  match s.toList with
  | '#' :: rest =>
    rest.length = 6 && rest.all (fun c => c.isDigit || ('a' ≤ c && c ≤ 'f') || ('A' ≤ c && c ≤ 'F'))
  | _ => false

/-- A `User` as returned to callers: the password column is never selected. -/
structure UserView where
  id : String
  name : String
  email : String
  timezone : String
deriving DecidableEq, Repr

/-- The response row for a user `u` (timezone defaulting to `""`). -/
def User.view (u : User) : UserView :=
  ⟨u.id, u.name, u.email, u.timezone.getD ""⟩

/-- `CreateUserRequest`: `name`/`email`/`password` are plain proto strings
(empty when unset), `timezone` is `optional`. -/
structure CreateUserReq where
  name : String
  email : String
  password : String
  timezone : JVal
deriving DecidableEq, Repr

/-- `CreateUser` (user service): the one unauthenticated creation endpoint.
Validation, email format, then `INSERT`; a duplicate email raises the UNIQUE
constraint mapped to ALREADY_EXISTS, any other insert failure falls to the
outer catch-all INTERNAL. `newId` models `Date.now().toString()`. -/
def CreateUser (db : Db) (newId : String) (r : CreateUserReq) : Res UserView :=
  if r.name = "" ∨ r.email = "" ∨ r.password = "" then ⟨.error .invalidArgument, db, false⟩
  else if !isValidEmail r.email then ⟨.error .invalidArgument, db, false⟩
  else if db.users.any (fun u => u.email = r.email) then ⟨.error .alreadyExists, db, true⟩
  else if db.users.any (fun u => u.id = newId) then ⟨.error .internal, db, true⟩
  else
    let u : User := ⟨newId, r.name, r.email, r.password,
      if r.timezone.truthy then some r.timezone.asString else none, none⟩
    ⟨.ok ⟨newId, r.name, r.email, r.timezone.asString⟩,
      { db with users := db.users ++ [u] }, true⟩

/-- `GetUser`: authenticate, then fetch any user by id (no ownership check on reads). -/
def GetUser (db : Db) (hdr : Option String) (user_id : String) : Res UserView :=
  match authenticate db hdr with
  | none => ⟨.error .unauthenticated, db, false⟩
  | some _ =>
    match db.users.find? (fun u => u.id = user_id) with
    | none => ⟨.error .notFound, db, false⟩
    | some u => ⟨.ok u.view, db, false⟩

/-- The `pagination` object of a `ListUsers` response. -/
structure Pagination where
  page : Int
  page_size : Int
  total : Int
deriving DecidableEq, Repr

/-- A `ListUsers` response. -/
structure ListUsersResp where
  users : List UserView
  pagination : Pagination
deriving DecidableEq, Repr

/-- `LIMIT ? OFFSET ?` of SQLite: a negative OFFSET skips nothing, a negative
LIMIT means unlimited. -/
def sqlLimitOffset {α : Type} (rows : List α) (limit offset : Int) : List α :=
  let dropped := rows.drop offset.toNat
  if limit < 0 then dropped else dropped.take limit.toNat

/-- `ListUsers`: authenticate, then page through the users table. `page` and
`page_size` are non-`optional` int32 fields, so they always arrive as numbers
(`0` when the caller leaves them out, in which case the destructuring defaults
`page = 1, page_size = 20` of the source do not fire); the claims quantify
over caller-supplied values, modelled directly as the two `Int` arguments.
`total` is `users.length`, the size of the returned page. -/
def ListUsers (db : Db) (hdr : Option String) (page page_size : Int) : Res ListUsersResp :=
  match authenticate db hdr with
  | none => ⟨.error .unauthenticated, db, false⟩
  | some _ =>
    let offset := (page - 1) * page_size
    let rows := sqlLimitOffset db.users page_size offset
    let views := rows.map User.view
    ⟨.ok ⟨views, ⟨page, page_size, views.length⟩⟩, db, false⟩

/-- `UpdateUserRequest`: `user_id` is a plain proto string, the four mutable
fields are `optional` (absent ⇒ `undef`). -/
structure UpdateUserReq where
  user_id : String
  name : JVal
  email : JVal
  password : JVal
  timezone : JVal
deriving DecidableEq, Repr

/-- The dynamic `UPDATE users SET ...` row transformation: each truthy field is
pushed into the SET list. -/
def applyUserUpdate (r : UpdateUserReq) (u : User) : User :=
  let u1 := if r.name.truthy then { u with name := r.name.asString } else u
  let u2 := if r.email.truthy then { u1 with email := r.email.asString } else u1
  let u3 := if r.password.truthy then { u2 with password := r.password.asString } else u2
  if r.timezone.truthy then { u3 with timezone := some r.timezone.asString } else u3

/-- `UpdateUser`: authenticate, `checkOwnership(authenticatedUser.id, user_id)`
(note: before the zero-field and email validations in the source), then
validations, then the dynamic `UPDATE`. -/
def UpdateUser (db : Db) (hdr : Option String) (r : UpdateUserReq) : Res UserView :=
  match authenticate db hdr with
  | none => ⟨.error .unauthenticated, db, false⟩
  | some au =>
    if au.id ≠ r.user_id then ⟨.error .permissionDenied, db, false⟩
    else if !r.name.truthy && !r.email.truthy && !r.password.truthy && !r.timezone.truthy then
      ⟨.error .invalidArgument, db, false⟩
    else if r.email.truthy && !isValidEmail r.email.asString then
      ⟨.error .invalidArgument, db, false⟩
    else
      let changes := (db.users.filter (fun u => u.id = r.user_id)).length
      let db' := { db with users := db.users.map (fun u => if u.id = r.user_id then applyUserUpdate r u else u) }
      if changes = 0 then ⟨.error .notFound, db', true⟩
      else
        match db'.users.find? (fun u => u.id = r.user_id) with
        | none => ⟨.error .internal, db', true⟩
        | some u => ⟨.ok u.view, db', true⟩

/-- `DeleteUser`: authenticate, `checkOwnership`, `DELETE FROM users WHERE id = ?`. -/
def DeleteUser (db : Db) (hdr : Option String) (user_id : String) : Res Unit :=
  match authenticate db hdr with
  | none => ⟨.error .unauthenticated, db, false⟩
  | some au =>
    if au.id ≠ user_id then ⟨.error .permissionDenied, db, false⟩
    else
      let changes := (db.users.filter (fun u => u.id = user_id)).length
      let db' := { db with users := db.users.filter (fun u => !(u.id = user_id)) }
      if changes = 0 then ⟨.error .notFound, db', true⟩
      else ⟨.ok (), db', true⟩

/-- `GetUserProfile`: authenticate and echo the authenticated account. -/
def GetUserProfile (db : Db) (hdr : Option String) : Res UserView :=
  match authenticate db hdr with
  | none => ⟨.error .unauthenticated, db, false⟩
  | some au => ⟨.ok au.view, db, false⟩

/-- `Login` (session service): validate, find the account by email, compare the
stored password, then `UPDATE users SET token = ? WHERE id = ?` with a freshly
generated token (`crypto.randomBytes`, modelled as the `newToken` argument). -/
def Login (db : Db) (newToken : String) (email password : String) : Res String :=
  if email = "" ∨ password = "" then ⟨.error .invalidArgument, db, false⟩
  else
    match db.users.find? (fun u => u.email = email) with
    | none => ⟨.error .unauthenticated, db, false⟩
    | some u =>
      if u.password ≠ password then ⟨.error .unauthenticated, db, false⟩
      else
        ⟨.ok newToken,
          { db with users := db.users.map (fun v => if v.id = u.id then { v with token := some newToken } else v) },
          true⟩

/-- `Logout`: authenticate, then `UPDATE users SET token = NULL WHERE id = ?`. -/
def Logout (db : Db) (hdr : Option String) : Res String :=
  match authenticate db hdr with
  | none => ⟨.error .unauthenticated, db, false⟩
  | some u =>
    ⟨.ok "Logout successful",
      { db with users := db.users.map (fun v => if v.id = u.id then { v with token := none } else v) },
      true⟩

/-- An `Event` as shaped for responses (optional columns defaulted to `""`). -/
structure EventView where
  id : String
  name : String
  duration : Int
  description : String
  color : String
  user_id : String
  is_owner : Bool
deriving DecidableEq, Repr

/-- `CreateEventRequest`: `name` and `duration` are non-`optional` (always a
string / a number), `description` and `color` are `optional`. -/
structure CreateEventReq where
  name : String
  duration : Int
  description : JVal
  color : JVal
deriving DecidableEq, Repr

/-- `CreateEvent`: authenticate, validate (`!name || !duration` — a zero
duration is falsy), optional color format, then `INSERT` owned by the caller.
`newId` models `Date.now().toString()`; a colliding primary key surfaces the
raw sqlite error through the `err.code` arm of the catch. -/
def CreateEvent (db : Db) (hdr : Option String) (newId : String) (r : CreateEventReq) : Res EventView :=
  match authenticate db hdr with
  | none => ⟨.error .unauthenticated, db, false⟩
  | some u =>
    if r.name = "" ∨ r.duration = 0 then ⟨.error .invalidArgument, db, false⟩
    else if r.color.truthy && !isValidHexColor r.color.asString then
      ⟨.error .invalidArgument, db, false⟩
    else if db.events.any (fun e => e.id = newId) then ⟨.error .sqliteConstraint, db, true⟩
    else
      let ev : Event := ⟨newId, r.name, r.duration,
        if r.description.truthy then some r.description.asString else none,
        if r.color.truthy then some r.color.asString else none, u.id⟩
      ⟨.ok ⟨newId, r.name, r.duration,
          if r.description.truthy then r.description.asString else "",
          if r.color.truthy then r.color.asString else "", u.id, true⟩,
        { db with events := db.events ++ [ev] }, true⟩

/-- `GetEvent`: authenticate, fetch by id, NOT_FOUND on a miss; any
authenticated caller may read any event, `is_owner` reports ownership. -/
def GetEvent (db : Db) (hdr : Option String) (event_id : String) : Res EventView :=
  match authenticate db hdr with
  | none => ⟨.error .unauthenticated, db, false⟩
  | some u =>
    match db.events.find? (fun e => e.id = event_id) with
    | none => ⟨.error .notFound, db, false⟩
    | some e =>
      ⟨.ok ⟨e.id, e.name, e.duration, e.description.getD "", e.color.getD "", e.userId,
        decide (e.userId = u.id)⟩, db, false⟩

/-- `ListEvents`: authenticate and return the caller's own events. -/
def ListEvents (db : Db) (hdr : Option String) : Res (List EventView) :=
  match authenticate db hdr with
  | none => ⟨.error .unauthenticated, db, false⟩
  | some u =>
    ⟨.ok ((db.events.filter (fun e => e.userId = u.id)).map
      (fun e => ⟨e.id, e.name, e.duration, e.description.getD "", e.color.getD "", e.userId, true⟩)),
      db, false⟩

/-- `UpdateEventRequest`: `event_id` non-`optional`, the four mutable fields
`optional` (absent ⇒ `undef`, including the int32 `duration`). -/
structure UpdateEventReq where
  event_id : String
  name : JVal
  duration : JVal
  description : JVal
  color : JVal
deriving DecidableEq, Repr

/-- The dynamic `UPDATE events SET ...` row transformation. The source pushes
`duration = ?` whenever `duration !== null` — in particular when the field is
absent (`undefined`), in which case the bound value is NULL and the
`duration INTEGER NOT NULL` column rejects the whole UPDATE (`none` here,
surfaced as a SQLITE_CONSTRAINT failure). -/
def applyEventUpdate (r : UpdateEventReq) (e : Event) : Option Event :=
  let e1 := if r.name.truthy then { e with name := r.name.asString } else e
  let e2 := if r.description.truthy then { e1 with description := some r.description.asString } else e1
  let e3 := if r.color.truthy then { e2 with color := some r.color.asString } else e2
  if r.duration.eqNull then some e3
  else
    match r.duration with
    | .jnum n => some { e3 with duration := n }
    | _ => none

/-- `UpdateEvent`: authenticate, zero-field guard
(`!name && duration === null && !description && !color`), color format,
existence lookup, ownership, then the dynamic `UPDATE`. -/
def UpdateEvent (db : Db) (hdr : Option String) (r : UpdateEventReq) : Res EventView :=
  match authenticate db hdr with
  | none => ⟨.error .unauthenticated, db, false⟩
  | some u =>
    if !r.name.truthy && r.duration.eqNull && !r.description.truthy && !r.color.truthy then
      ⟨.error .invalidArgument, db, false⟩
    else if r.color.truthy && !isValidHexColor r.color.asString then
      ⟨.error .invalidArgument, db, false⟩
    else
      match db.events.find? (fun e => e.id = r.event_id) with
      | none => ⟨.error .notFound, db, false⟩
      | some e =>
        if e.userId ≠ u.id then ⟨.error .permissionDenied, db, false⟩
        else
          match applyEventUpdate r e with
          | none => ⟨.error .sqliteConstraint, db, true⟩
          | some e' =>
            let changes := (db.events.filter (fun x => x.id = r.event_id)).length
            let db' := { db with events := db.events.map (fun x => if x.id = r.event_id then e' else x) }
            if changes = 0 then ⟨.error .notFound, db', true⟩
            else
              match db'.events.find? (fun x => x.id = r.event_id) with
              | none => ⟨.error .internal, db', true⟩
              | some ue =>
                ⟨.ok ⟨ue.id, ue.name, ue.duration, ue.description.getD "", ue.color.getD "",
                  ue.userId, true⟩, db', true⟩

/-- `DeleteEvent`: authenticate, existence lookup, ownership, `DELETE`. -/
def DeleteEvent (db : Db) (hdr : Option String) (event_id : String) : Res Unit :=
  match authenticate db hdr with
  | none => ⟨.error .unauthenticated, db, false⟩
  | some u =>
    match db.events.find? (fun e => e.id = event_id) with
    | none => ⟨.error .notFound, db, false⟩
    | some e =>
      if e.userId ≠ u.id then ⟨.error .permissionDenied, db, false⟩
      else
        let changes := (db.events.filter (fun x => x.id = event_id)).length
        let db' := { db with events := db.events.filter (fun x => !(x.id = event_id)) }
        if changes = 0 then ⟨.error .notFound, db', true⟩
        else ⟨.ok (), db', true⟩

/-- `TimeRange` of the proto `Availability` payload (`HH:MM` strings). -/
structure TimeRange where
  start_time : String
  end_time : String
deriving DecidableEq, Repr

/-- `DaySchedule` of the proto `Availability` payload. -/
structure DaySchedule where
  day : String
  time_ranges : List TimeRange
deriving DecidableEq, Repr

/-- The proto `Availability` message: an ordered list of day entries. -/
structure Availability where
  days : List DaySchedule
deriving DecidableEq, Repr

/-- The literal characters `{"start_time":"` opening a serialized time range. -/
def startTimeKey : List Char :=
  ['\x7b', '"', 's', 't', 'a', 'r', 't', '_', 't', 'i', 'm', 'e', '"', ':', '"']

/-- The literal characters `,"end_time":"` between the two times. -/
def endTimeKey : List Char :=
  [',', '"', 'e', 'n', 'd', '_', 't', 'i', 'm', 'e', '"', ':', '"']

/-- The literal characters `{"day":"` opening a serialized day entry. -/
def dayKey : List Char :=
  ['\x7b', '"', 'd', 'a', 'y', '"', ':', '"']

/-- The literal characters `,"time_ranges":[` between a day label and its ranges. -/
def timeRangesKey : List Char :=
  [',', '"', 't', 'i', 'm', 'e', '_', 'r', 'a', 'n', 'g', 'e', 's', '"', ':', '[']

/-- The literal characters `{"days":[` opening a serialized availability. -/
def daysKey : List Char :=
  ['\x7b', '"', 'd', 'a', 'y', 's', '"', ':', '[']

/-- Characters of `JSON.stringify` applied to one time range, e.g.
`{"start_time":"09:00","end_time":"17:00"}` (for strings free of the
characters JSON escapes). -/
def timeRangeChars (t : TimeRange) : List Char :=
  startTimeKey ++ t.start_time.toList ++ '"' :: endTimeKey ++ t.end_time.toList ++ '"' :: ['\x7d']

/-- The serialized tail of a time-range array after its first element:
`,<item>` repeated, then the closing `]`. -/
def timeRangeTail : List TimeRange → List Char
  | [] => [']']
  | t :: rest => ',' :: (timeRangeChars t ++ timeRangeTail rest)

/-- The serialized elements of a time-range array followed by its closing `]`
(the opening `[` sits in `timeRangesKey`). -/
def timeRangeItems : List TimeRange → List Char
  | [] => [']']
  | t :: rest => timeRangeChars t ++ timeRangeTail rest

/-- Characters of `JSON.stringify` applied to one day entry. -/
def dayChars (d : DaySchedule) : List Char :=
  dayKey ++ d.day.toList ++ '"' :: timeRangesKey ++ timeRangeItems d.time_ranges ++ ['\x7d']

/-- The serialized tail of the day array after its first element. -/
def dayTail : List DaySchedule → List Char
  | [] => [']']
  | d :: rest => ',' :: (dayChars d ++ dayTail rest)

/-- The serialized elements of the day array followed by its closing `]`. -/
def dayItems : List DaySchedule → List Char
  | [] => [']']
  | d :: rest => dayChars d ++ dayTail rest

/-- Characters of `JSON.stringify(availability)` as the schedule handlers
store it: `{"days":[...]}` with the field order of the proto message. -/
def availabilityChars (a : Availability) : List Char :=
  daysKey ++ dayItems a.days ++ ['\x7d']

/-- `JSON.stringify(availability)`, the blob stored in the `availability`
column. Faithful to the source for payloads whose strings contain no
character JSON escapes (no `"`, no backslash, no control characters). -/
def stringifyAvailability (a : Availability) : String :=
  String.mk (availabilityChars a)

/-- Strip an expected literal prefix from the input, the basic step of the
`JSON.parse` model. -/
def stripLitChars : List Char → List Char → Option (List Char)
  | [], input => some input
  | _ :: _, [] => none
  | p :: ps, c :: cs => if c = p then stripLitChars ps cs else none

/-- Read the body of a JSON string up to its closing quote (the restricted
grammar stores no escape sequences). -/
def readStringBody : List Char → Option (List Char × List Char)
  | [] => none
  | c :: cs =>
    if c = '"' then some ([], cs)
    else
      match readStringBody cs with
      | none => none
      | some (s, rest) => some (c :: s, rest)

/-- Parse one serialized time range. -/
def parseTimeRange (input : List Char) : Option (TimeRange × List Char) :=
  match stripLitChars startTimeKey input with
  | none => none
  | some r1 =>
    match readStringBody r1 with
    | none => none
    | some (st, r2) =>
      match stripLitChars endTimeKey r2 with
      | none => none
      | some r3 =>
        match readStringBody r3 with
        | none => none
        | some (en, r4) =>
          match stripLitChars ['\x7d'] r4 with
          | none => none
          | some r5 => some (⟨String.mk st, String.mk en⟩, r5)

/-- Parse the `,<item>`* `]` tail of a time-range array; `fuel` bounds the
number of comma steps (any value at least the element count works). -/
def parseTimeRangeTail : Nat → List Char → Option (List TimeRange × List Char)
  | 0, input =>
    match stripLitChars [']'] input with
    | some rest => some ([], rest)
    | none => none
  | f + 1, input =>
    match stripLitChars [']'] input with
    | some rest => some ([], rest)
    | none =>
      match input with
      | [] => none
      | c :: cs =>
        if c = ',' then
          match parseTimeRange cs with
          | none => none
          | some (t, rest) =>
            match parseTimeRangeTail f rest with
            | none => none
            | some (ts, rest') => some (t :: ts, rest')
        else none

/-- Parse a full time-range array after its opening `[`. -/
def parseTimeRangeList (fuel : Nat) (input : List Char) : Option (List TimeRange × List Char) :=
  match stripLitChars [']'] input with
  | some rest => some ([], rest)
  | none =>
    match parseTimeRange input with
    | none => none
    | some (t, rest) =>
      match parseTimeRangeTail fuel rest with
      | none => none
      | some (ts, rest') => some (t :: ts, rest')

/-- Parse one serialized day entry (its time-range array bounded by `fuel`). -/
def parseDay (fuel : Nat) (input : List Char) : Option (DaySchedule × List Char) :=
  match stripLitChars dayKey input with
  | none => none
  | some r1 =>
    match readStringBody r1 with
    | none => none
    | some (dy, r2) =>
      match stripLitChars timeRangesKey r2 with
      | none => none
      | some r3 =>
        match parseTimeRangeList fuel r3 with
        | none => none
        | some (ts, r4) =>
          match stripLitChars ['\x7d'] r4 with
          | none => none
          | some r5 => some (⟨String.mk dy, ts⟩, r5)

/-- Parse the `,<item>`* `]` tail of the day array. -/
def parseDayTail : Nat → List Char → Option (List DaySchedule × List Char)
  | 0, input =>
    match stripLitChars [']'] input with
    | some rest => some ([], rest)
    | none => none
  | f + 1, input =>
    match stripLitChars [']'] input with
    | some rest => some ([], rest)
    | none =>
      match input with
      | [] => none
      | c :: cs =>
        if c = ',' then
          match parseDay f cs with
          | none => none
          | some (d, rest) =>
            match parseDayTail f rest with
            | none => none
            | some (ds, rest') => some (d :: ds, rest')
        else none

/-- Parse the full day array after its opening `[`. -/
def parseDayList (fuel : Nat) (input : List Char) : Option (List DaySchedule × List Char) :=
  match stripLitChars [']'] input with
  | some rest => some ([], rest)
  | none =>
    match parseDay fuel input with
    | none => none
    | some (d, rest) =>
      match parseDayTail fuel rest with
      | none => none
      | some (ds, rest') => some (d :: ds, rest')

/-- `JSON.parse` of a stored availability blob, restricted to the grammar the
schedule handlers ever store: `{"days":[...]}` with no escape sequences and
no trailing garbage. The fuel `s.length` dominates every element count. -/
def parseAvailability (s : String) : Option Availability :=
  match stripLitChars daysKey s.toList with
  | none => none
  | some r =>
    match parseDayList s.toList.length r with
    | none => none
    | some (ds, rest) =>
      match stripLitChars ['\x7d'] rest with
      | none => none
      | some [] => some ⟨ds⟩
      | some _ => none

/-- A `Schedule` as shaped for responses (availability deserialized). -/
structure ScheduleView where
  id : Nat
  user_id : String
  availability : Availability
deriving DecidableEq, Repr

/-- `CreateScheduleRequest`: `user_id` non-`optional`; `availability` is a
message field, `null` (⇒ falsy) when the caller leaves it out. -/
structure CreateScheduleReq where
  user_id : String
  availability : Option Availability
deriving DecidableEq, Repr

/-- `CreateSchedule` (schedule service): authenticate, validate
(`!user_id || !availability`), reject creation for someone else
(PERMISSION_DENIED), `INSERT` the JSON blob, then re-`SELECT` the first row
of that owner for the response id (which is a pre-existing row if the owner
already had one — creation does not enforce one-schedule-per-owner). -/
def CreateSchedule (db : Db) (hdr : Option String) (r : CreateScheduleReq) : Res ScheduleView :=
  match authenticate db hdr with
  | none => ⟨.error .unauthenticated, db, false⟩
  | some u =>
    match r.availability with
    | none => ⟨.error .invalidArgument, db, false⟩
    | some a =>
      if r.user_id = "" then ⟨.error .invalidArgument, db, false⟩
      else if r.user_id ≠ u.id then ⟨.error .permissionDenied, db, false⟩
      else
        let row : Schedule := ⟨db.scheduleSeq + 1, r.user_id, stringifyAvailability a⟩
        let db' := { db with schedules := db.schedules ++ [row], scheduleSeq := db.scheduleSeq + 1 }
        match db'.schedules.find? (fun s => s.userId = r.user_id) with
        | none => ⟨.error .internal, db', true⟩
        | some ns => ⟨.ok ⟨ns.id, ns.userId, a⟩, db', true⟩

/-- `GetSchedule`: the one intentionally unauthenticated read — fetch the
first schedule row of the given owner and deserialize its blob (parse
failures map to INTERNAL). -/
def GetSchedule (db : Db) (user_id : String) : Res ScheduleView :=
  match db.schedules.find? (fun s => s.userId = user_id) with
  | none => ⟨.error .notFound, db, false⟩
  | some s =>
    match parseAvailability s.availability with
    | none => ⟨.error .internal, db, false⟩
    | some a => ⟨.ok ⟨s.id, s.userId, a⟩, db, false⟩

/-- `ListSchedules`: authenticate, return the caller's rows, silently skipping
rows whose blob fails to parse. -/
def ListSchedules (db : Db) (hdr : Option String) : Res (List ScheduleView) :=
  match authenticate db hdr with
  | none => ⟨.error .unauthenticated, db, false⟩
  | some u =>
    ⟨.ok ((db.schedules.filter (fun s => s.userId = u.id)).filterMap
      (fun s => (parseAvailability s.availability).map (fun a => ⟨s.id, s.userId, a⟩))),
      db, false⟩

/-- `UpdateScheduleRequest`: same field shapes as creation. -/
structure UpdateScheduleReq where
  user_id : String
  availability : Option Availability
deriving DecidableEq, Repr

/-- `UpdateSchedule`: authenticate, validate (`!availability`), then
`checkOwnership(user.id, user_id)` — before any existence check — then
`UPDATE schedules SET availability = ? WHERE userId = ?`, reporting NOT_FOUND
only when that UPDATE matched no row. The response id is hardcoded `0` in the
source. -/
def UpdateSchedule (db : Db) (hdr : Option String) (r : UpdateScheduleReq) : Res ScheduleView :=
  match authenticate db hdr with
  | none => ⟨.error .unauthenticated, db, false⟩
  | some u =>
    match r.availability with
    | none => ⟨.error .invalidArgument, db, false⟩
    | some a =>
      if u.id ≠ r.user_id then ⟨.error .permissionDenied, db, false⟩
      else
        let changes := (db.schedules.filter (fun s => s.userId = r.user_id)).length
        let db' := { db with schedules := db.schedules.map (fun s =>
          if s.userId = r.user_id then { s with availability := stringifyAvailability a } else s) }
        if changes = 0 then ⟨.error .notFound, db', true⟩
        else ⟨.ok ⟨0, r.user_id, a⟩, db', true⟩

/-- `DeleteSchedule`: authenticate, `checkOwnership(user.id, user_id)` —
again before any existence check — then `DELETE FROM schedules WHERE userId = ?`. -/
def DeleteSchedule (db : Db) (hdr : Option String) (user_id : String) : Res Unit :=
  match authenticate db hdr with
  | none => ⟨.error .unauthenticated, db, false⟩
  | some u =>
    if u.id ≠ user_id then ⟨.error .permissionDenied, db, false⟩
    else
      let changes := (db.schedules.filter (fun s => s.userId = user_id)).length
      let db' := { db with schedules := db.schedules.filter (fun s => !(s.userId = user_id)) }
      if changes = 0 then ⟨.error .notFound, db', true⟩
      else ⟨.ok (), db', true⟩

/-- An `Appointment` as shaped for responses. -/
structure AppointmentView where
  id : String
  event_id : String
  user_id : String
  invitee_email : String
  start_time : String
  end_time : String
  status : String
deriving DecidableEq, Repr

/-- `CreateAppointmentRequest`: all four fields are non-`optional` strings. -/
structure CreateAppointmentReq where
  event_id : String
  invitee_email : String
  start_time : String
  end_time : String
deriving DecidableEq, Repr

/-- `CreateAppointment` (appointment service): authenticate, validate the four
required fields and the invitee email format, then `INSERT` with
`userId = user.id` — the authenticated caller. The referenced event is never
looked up: neither its existence nor its owner is consulted. `newId` models
`Date.now().toString()`; a colliding primary key surfaces the raw sqlite
error through the `err.code` arm of the catch. -/
def CreateAppointment (db : Db) (hdr : Option String) (newId : String)
    (r : CreateAppointmentReq) : Res AppointmentView :=
  match authenticate db hdr with
  | none => ⟨.error .unauthenticated, db, false⟩
  | some u =>
    if r.event_id = "" ∨ r.invitee_email = "" ∨ r.start_time = "" ∨ r.end_time = "" then
      ⟨.error .invalidArgument, db, false⟩
    else if !isValidEmail r.invitee_email then ⟨.error .invalidArgument, db, false⟩
    else if db.appointments.any (fun a => a.id = newId) then ⟨.error .sqliteConstraint, db, true⟩
    else
      let appt : Appointment :=
        ⟨newId, r.event_id, u.id, r.invitee_email, r.start_time, r.end_time, "scheduled"⟩
      ⟨.ok ⟨newId, r.event_id, u.id, r.invitee_email, r.start_time, r.end_time, "scheduled"⟩,
        { db with appointments := db.appointments ++ [appt] }, true⟩

/-- `GetAppointment`: authenticate, then
`SELECT * FROM appointments WHERE id = ? AND userId = ?` — the ownership
condition is folded into the lookup, so a non-owner's request misses and
reports NOT_FOUND. -/
def GetAppointment (db : Db) (hdr : Option String) (appointment_id : String) : Res AppointmentView :=
  match authenticate db hdr with
  | none => ⟨.error .unauthenticated, db, false⟩
  | some u =>
    match db.appointments.find? (fun a => a.id = appointment_id && a.userId = u.id) with
    | none => ⟨.error .notFound, db, false⟩
    | some a =>
      ⟨.ok ⟨a.id, a.eventId, a.userId, a.inviteeEmail, a.startTime, a.endTime, a.status⟩, db, false⟩

/-- `ListAppointments`: authenticate and return the caller's own rows. -/
def ListAppointments (db : Db) (hdr : Option String) : Res (List AppointmentView) :=
  match authenticate db hdr with
  | none => ⟨.error .unauthenticated, db, false⟩
  | some u =>
    ⟨.ok ((db.appointments.filter (fun a => a.userId = u.id)).map
      (fun a => ⟨a.id, a.eventId, a.userId, a.inviteeEmail, a.startTime, a.endTime, a.status⟩)),
      db, false⟩

/-- `UpdateAppointmentRequest`: `appointment_id` non-`optional`, the five
mutable fields `optional`. -/
structure UpdateAppointmentReq where
  appointment_id : String
  event_id : JVal
  invitee_email : JVal
  start_time : JVal
  end_time : JVal
  status : JVal
deriving DecidableEq, Repr

/-- The dynamic `UPDATE appointments SET ...` row transformation (only truthy
fields are pushed, so every bound value is a non-empty string). -/
def applyAppointmentUpdate (r : UpdateAppointmentReq) (a : Appointment) : Appointment :=
  let a1 := if r.event_id.truthy then { a with eventId := r.event_id.asString } else a
  let a2 := if r.invitee_email.truthy then { a1 with inviteeEmail := r.invitee_email.asString } else a1
  let a3 := if r.start_time.truthy then { a2 with startTime := r.start_time.asString } else a2
  let a4 := if r.end_time.truthy then { a3 with endTime := r.end_time.asString } else a3
  if r.status.truthy then { a4 with status := r.status.asString } else a4

/-- `UpdateAppointment`: authenticate, zero-field guard, email format,
existence lookup, ownership, then the dynamic `UPDATE`. -/
def UpdateAppointment (db : Db) (hdr : Option String) (r : UpdateAppointmentReq) : Res AppointmentView :=
  match authenticate db hdr with
  | none => ⟨.error .unauthenticated, db, false⟩
  | some u =>
    if !r.event_id.truthy && !r.invitee_email.truthy && !r.start_time.truthy &&
        !r.end_time.truthy && !r.status.truthy then
      ⟨.error .invalidArgument, db, false⟩
    else if r.invitee_email.truthy && !isValidEmail r.invitee_email.asString then
      ⟨.error .invalidArgument, db, false⟩
    else
      match db.appointments.find? (fun a => a.id = r.appointment_id) with
      | none => ⟨.error .notFound, db, false⟩
      | some a =>
        if a.userId ≠ u.id then ⟨.error .permissionDenied, db, false⟩
        else
          let changes := (db.appointments.filter (fun x => x.id = r.appointment_id)).length
          let db' := { db with appointments := db.appointments.map (fun x =>
            if x.id = r.appointment_id then applyAppointmentUpdate r x else x) }
          if changes = 0 then ⟨.error .notFound, db', true⟩
          else
            match db'.appointments.find? (fun x => x.id = r.appointment_id) with
            | none => ⟨.error .internal, db', true⟩
            | some ua =>
              ⟨.ok ⟨ua.id, ua.eventId, ua.userId, ua.inviteeEmail, ua.startTime, ua.endTime, ua.status⟩,
                db', true⟩

/-- `DeleteAppointment`: authenticate, existence lookup, ownership, `DELETE`. -/
def DeleteAppointment (db : Db) (hdr : Option String) (appointment_id : String) : Res Unit :=
  match authenticate db hdr with
  | none => ⟨.error .unauthenticated, db, false⟩
  | some u =>
    match db.appointments.find? (fun a => a.id = appointment_id) with
    | none => ⟨.error .notFound, db, false⟩
    | some a =>
      if a.userId ≠ u.id then ⟨.error .permissionDenied, db, false⟩
      else
        let changes := (db.appointments.filter (fun x => x.id = appointment_id)).length
        let db' := { db with appointments := db.appointments.filter (fun x => !(x.id = appointment_id)) }
        if changes = 0 then ⟨.error .notFound, db', true⟩
        else ⟨.ok (), db', true⟩

/-! ### Concrete sample data used by witnesses and counterexamples -/

/-- A sample account holding the live token `t1`. -/
def userA : User := ⟨"u1", "Alice", "alice@example.com", "pw1", some "Europe/Tallinn", some "t1"⟩

/-- A second account holding the live token `t2`. -/
def userB : User := ⟨"u2", "Bob", "bob@example.com", "pw2", none, some "t2"⟩

/-- A third, logged-out account (token NULL). -/
def userC : User := ⟨"u3", "Carol", "carol@example.com", "pw3", none, none⟩

/-- A sample event owned by `u1`. -/
def event1 : Event := ⟨"e1", "Standup", 30, none, none, "u1"⟩

/-- A sample appointment owned by `u1`. -/
def appt1 : Appointment :=
  ⟨"a1", "e1", "u1", "invitee@example.com", "2025-01-01T10:00", "2025-01-01T10:30", "scheduled"⟩

/-- A sample availability payload. -/
def availX : Availability := ⟨[⟨"Monday", [⟨"09:00", "17:00"⟩]⟩]⟩

/-- A different sample availability payload. -/
def availY : Availability := ⟨[⟨"Tuesday", [⟨"10:00", "12:00"⟩, ⟨"13:00", "15:00"⟩]⟩]⟩

/-- A schedule row of `u1` storing `availX`. -/
def sched1 : Schedule := ⟨1, "u1", stringifyAvailability availX⟩

/-- The main sample database (no schedule rows). -/
def dbMain : Db := ⟨[userA, userB, userC], [event1], [], [appt1], 0⟩

/-- The sample database with `u1` already holding a schedule row. -/
def dbSched : Db := ⟨[userA, userB, userC], [event1], [sched1], [appt1], 1⟩

/-- `u1`'s authorization header. -/
def hdrA : Option String := some "Bearer t1"

/-- `u2`'s authorization header. -/
def hdrB : Option String := some "Bearer t2"

/-- A character JSON would serialize verbatim (no quote, no backslash; the
model of `JSON.stringify` is faithful exactly on such strings). -/
def cleanChar (c : Char) : Bool :=
  c != '"' && c != '\\'

/-- A string `JSON.stringify` emits verbatim between its quotes. -/
def cleanStr (s : String) : Bool :=
  s.toList.all cleanChar

/-- Cleanliness of one time range. -/
def cleanTR (t : TimeRange) : Bool :=
  cleanStr t.start_time && cleanStr t.end_time

/-- Cleanliness of one day entry. -/
def cleanDay (d : DaySchedule) : Bool :=
  cleanStr d.day && d.time_ranges.all cleanTR

/-- Cleanliness of a whole availability payload (HH:MM strings and day labels
always satisfy it). -/
def cleanAvail (a : Availability) : Bool :=
  a.days.all cleanDay

/-- The parsing fuel a day list needs: one unit per day plus one per time
range (each comma step of the two tail parsers consumes one unit). -/
def daysNeed (l : List DaySchedule) : Nat :=
  l.length + (l.map (fun d => d.time_ranges.length)).sum

/-! ### Tokenizer and authenticator lemmas -/

/-- `splitSpace` always yields at least one component. -/
theorem splitSpace_ne_nil (l : List Char) : splitSpace l ≠ [] := by
  cases l with
  | nil => simp [splitSpace]
  | cons c cs =>
    simp only [splitSpace]
    cases h : splitSpace cs with
    | nil => simp
    | cons h t =>
      by_cases hc : c = ' ' <;> simp [hc]

/-- A space-free word is its own single component. -/
theorem splitSpace_no_space (l : List Char) (h : ' ' ∉ l) : splitSpace l = [l] := by
  induction l with
  | nil => simp [splitSpace]
  | cons c cs ih =>
    have hc : c ≠ ' ' := fun hc => h (hc ▸ List.mem_cons_self c cs)
    have hcs : ' ' ∉ cs := fun hm => h (List.mem_cons_of_mem c hm)
    simp [splitSpace, ih hcs, fun hc' => hc hc']

/-- Splitting a space-free word, a space, then a remainder peels off the word. -/
theorem splitSpace_word_space (p r : List Char) (hp : ' ' ∉ p) :
    splitSpace (p ++ ' ' :: r) = p :: splitSpace r := by
  induction p with
  | nil =>
    simp only [List.nil_append, splitSpace]
    cases h : splitSpace r with
    | nil => exact absurd h (splitSpace_ne_nil r)
    | cons a t => simp
  | cons c cs ih =>
    have hc : c ≠ ' ' := fun hc => hp (hc ▸ List.mem_cons_self c cs)
    have hcs : ' ' ∉ cs := fun hm => hp (List.mem_cons_of_mem c hm)
    simp only [List.cons_append, splitSpace, List.append_eq]
    rw [ih hcs]
    simp [hc]

/-- The extracted token of a `<word> <token>` header is the second word,
whatever the first word is. -/
theorem extractToken_word_word (p t : List Char) (hp : ' ' ∉ p) (ht : ' ' ∉ t) (htne : t ≠ []) :
    extractToken (some (String.mk (p ++ ' ' :: t))) = some (String.mk t) := by
  simp only [extractToken, String.toList]
  rw [splitSpace_word_space p t hp, splitSpace_no_space t ht]
  simp [htne]

/-- A header without any space never extracts a token (`split(' ')[1]` is
`undefined`). -/
theorem extractToken_no_space (w : List Char) (hw : ' ' ∉ w) :
    extractToken (some (String.mk w)) = none := by
  simp only [extractToken, String.toList]
  rw [splitSpace_no_space w hw]
  rfl

/-- Two consecutive spaces make the second component empty, which the
`if (!token)` guard rejects. -/
theorem extractToken_double_space (p r : List Char) (hp : ' ' ∉ p) :
    extractToken (some (String.mk (p ++ ' ' :: ' ' :: r))) = none := by
  simp only [extractToken, String.toList]
  rw [splitSpace_word_space p (' ' :: r) hp]
  simp only [splitSpace]
  cases h : splitSpace r with
  | nil => exact absurd h (splitSpace_ne_nil r)
  | cons a t => simp

/-- The extracted token of the canonical `Bearer <token>` header. -/
theorem extractToken_bearer (t : String) (h1 : t ≠ "") (h2 : ' ' ∉ t.toList) :
    extractToken (some ("Bearer " ++ t)) = some t := by
  have hs : "Bearer " ++ t = String.mk (['B', 'e', 'a', 'r', 'e', 'r'] ++ ' ' :: t.toList) := by
    cases t with
    | mk d => rfl
  rw [hs, extractToken_word_word _ _ (by decide) h2]
  · cases t with
    | mk d => rfl
  · cases t with
    | mk d =>
      intro hd
      exact h1 (by simpa using congrArg String.mk hd)

/-- The extracted token of a `<word> <rest>` header does not depend on the
word before the first space: it always equals the extraction from
`" <rest>"`. -/
theorem extractToken_word_irrelevant (p r : List Char) (hp : ' ' ∉ p) :
    extractToken (some (String.mk (p ++ ' ' :: r))) = extractToken (some (String.mk (' ' :: r))) := by
  simp only [extractToken, String.toList]
  rw [splitSpace_word_space p r hp]
  conv_rhs => rw [show (' ' :: r : List Char) = [] ++ ' ' :: r from rfl, splitSpace_word_space [] r (by simp)]
  simp

/-! ### C7 — authorization header shape -/

/-- C7, counterexample. The claim says the Authenticator accepts only the
exact, case-sensitive `Bearer <token>` shape and rejects every other prefix
even when the embedded token matches a stored token. In the code the prefix
is never examined (`split(' ')[1]` keeps only the second word): the headers
`xyz t1` and `bearer t1` authenticate exactly like `Bearer t1`. -/
theorem C7_counterexample :
    authenticate dbMain (some "xyz t1") = some userA ∧
    authenticate dbMain (some "bearer t1") = some userA ∧
    authenticate dbMain (some "Bearer t1") = some userA := by
  exact ⟨rfl, rfl, rfl⟩

/-- C7, amended: the Authenticator splits the authorization value at single
spaces and uses the second component as the token, never examining the first:
(1) any two space-free prefix words give identical outcomes; (2) a
`<word> <token>` header resolves exactly the accounts whose stored token
equals the second word; (3) a value without a space fails (no second
component); (4) a double space makes the second component empty, which also
fails. -/
theorem C7_amended_second_word_is_token :
    (∀ (db : Db) (p₁ p₂ r : List Char), ' ' ∉ p₁ → ' ' ∉ p₂ →
      authenticate db (some (String.mk (p₁ ++ ' ' :: r))) =
        authenticate db (some (String.mk (p₂ ++ ' ' :: r)))) ∧
    (∀ (db : Db) (p t : List Char), ' ' ∉ p → ' ' ∉ t → t ≠ [] →
      authenticate db (some (String.mk (p ++ ' ' :: t))) =
        db.users.find? (fun u => u.token = some (String.mk t))) ∧
    (∀ (db : Db) (w : List Char), ' ' ∉ w →
      authenticate db (some (String.mk w)) = none) ∧
    (∀ (db : Db) (p r : List Char), ' ' ∉ p →
      authenticate db (some (String.mk (p ++ ' ' :: ' ' :: r))) = none) := by
  refine ⟨?_, ?_, ?_, ?_⟩
  · intro db p₁ p₂ r h1 h2
    simp only [authenticate]
    rw [extractToken_word_irrelevant p₁ r h1, extractToken_word_irrelevant p₂ r h2]
  · intro db p t hp ht htne
    simp only [authenticate]
    rw [extractToken_word_word p t hp ht htne]
  · intro db w hw
    simp only [authenticate]
    rw [extractToken_no_space w hw]
  · intro db p r hp
    simp only [authenticate]
    rw [extractToken_double_space p r hp]

/-- C7, witness: the amended theorem applied at concrete headers over the
sample database. -/
theorem C7_amended_witness :
    authenticate dbMain (some (String.mk (['x', 'y', 'z'] ++ ' ' :: ['t', '1']))) =
      authenticate dbMain (some (String.mk (['B', 'e', 'a', 'r', 'e', 'r'] ++ ' ' :: ['t', '1']))) ∧
    authenticate dbMain (some (String.mk (['x', 'y', 'z'] ++ ' ' :: ['t', '1']))) =
      dbMain.users.find? (fun u => u.token = some (String.mk ['t', '1'])) ∧
    authenticate dbMain (some (String.mk ['t', '1'])) = none ∧
    authenticate dbMain (some (String.mk (['B'] ++ ' ' :: ' ' :: ['t', '1']))) = none := by
  refine ⟨?_, ?_, ?_, ?_⟩
  · exact C7_amended_second_word_is_token.1 dbMain ['x', 'y', 'z'] ['B', 'e', 'a', 'r', 'e', 'r']
      ['t', '1'] (by decide) (by decide)
  · exact C7_amended_second_word_is_token.2.1 dbMain ['x', 'y', 'z'] ['t', '1']
      (by decide) (by decide) (by decide)
  · exact C7_amended_second_word_is_token.2.2.1 dbMain ['t', '1'] (by decide)
  · exact C7_amended_second_word_is_token.2.2.2 dbMain ['B'] ['t', '1'] (by decide)

/-! ### C3 — UNAUTHENTICATED before any other check -/

/-- C3: on every protected operation, a request whose bearer credential fails
to authenticate (missing, malformed, or unrecognized) returns UNAUTHENTICATED
with the store untouched and no write attempted — before any validation,
existence or ownership check can fire (the conclusion holds for every request
payload, including invalid ones aimed at nonexistent or foreign resources).
The final conjunct gives the indistinguishability: a well-formed `Bearer`
header whose token is stored on no account fails authentication, hence lands
in the same UNAUTHENTICATED outcome as any other bad credential — never
NOT_FOUND. -/
theorem C3_unauthenticated_first :
    (∀ db hdr uid, authenticate db hdr = none →
      GetUser db hdr uid = ⟨.error .unauthenticated, db, false⟩) ∧
    (∀ db hdr page psize, authenticate db hdr = none →
      ListUsers db hdr page psize = ⟨.error .unauthenticated, db, false⟩) ∧
    (∀ db hdr r, authenticate db hdr = none →
      UpdateUser db hdr r = ⟨.error .unauthenticated, db, false⟩) ∧
    (∀ db hdr uid, authenticate db hdr = none →
      DeleteUser db hdr uid = ⟨.error .unauthenticated, db, false⟩) ∧
    (∀ db hdr, authenticate db hdr = none →
      GetUserProfile db hdr = ⟨.error .unauthenticated, db, false⟩) ∧
    (∀ db hdr, authenticate db hdr = none →
      Logout db hdr = ⟨.error .unauthenticated, db, false⟩) ∧
    (∀ db hdr nid r, authenticate db hdr = none →
      CreateEvent db hdr nid r = ⟨.error .unauthenticated, db, false⟩) ∧
    (∀ db hdr eid, authenticate db hdr = none →
      GetEvent db hdr eid = ⟨.error .unauthenticated, db, false⟩) ∧
    (∀ db hdr, authenticate db hdr = none →
      ListEvents db hdr = ⟨.error .unauthenticated, db, false⟩) ∧
    (∀ db hdr r, authenticate db hdr = none →
      UpdateEvent db hdr r = ⟨.error .unauthenticated, db, false⟩) ∧
    (∀ db hdr eid, authenticate db hdr = none →
      DeleteEvent db hdr eid = ⟨.error .unauthenticated, db, false⟩) ∧
    (∀ db hdr r, authenticate db hdr = none →
      CreateSchedule db hdr r = ⟨.error .unauthenticated, db, false⟩) ∧
    (∀ db hdr, authenticate db hdr = none →
      ListSchedules db hdr = ⟨.error .unauthenticated, db, false⟩) ∧
    (∀ db hdr r, authenticate db hdr = none →
      UpdateSchedule db hdr r = ⟨.error .unauthenticated, db, false⟩) ∧
    (∀ db hdr uid, authenticate db hdr = none →
      DeleteSchedule db hdr uid = ⟨.error .unauthenticated, db, false⟩) ∧
    (∀ db hdr nid r, authenticate db hdr = none →
      CreateAppointment db hdr nid r = ⟨.error .unauthenticated, db, false⟩) ∧
    (∀ db hdr aid, authenticate db hdr = none →
      GetAppointment db hdr aid = ⟨.error .unauthenticated, db, false⟩) ∧
    (∀ db hdr, authenticate db hdr = none →
      ListAppointments db hdr = ⟨.error .unauthenticated, db, false⟩) ∧
    (∀ db hdr r, authenticate db hdr = none →
      UpdateAppointment db hdr r = ⟨.error .unauthenticated, db, false⟩) ∧
    (∀ db hdr aid, authenticate db hdr = none →
      DeleteAppointment db hdr aid = ⟨.error .unauthenticated, db, false⟩) ∧
    (∀ (db : Db) (t : String), t ≠ "" → ' ' ∉ t.toList →
      (∀ u ∈ db.users, u.token ≠ some t) →
      authenticate db (some ("Bearer " ++ t)) = none) := by
  refine ⟨?_, ?_, ?_, ?_, ?_, ?_, ?_, ?_, ?_, ?_, ?_, ?_, ?_, ?_, ?_, ?_, ?_, ?_, ?_, ?_, ?_⟩
  · intro db hdr uid h; simp [GetUser, h]
  · intro db hdr page psize h; simp [ListUsers, h]
  · intro db hdr r h; simp [UpdateUser, h]
  · intro db hdr uid h; simp [DeleteUser, h]
  · intro db hdr h; simp [GetUserProfile, h]
  · intro db hdr h; simp [Logout, h]
  · intro db hdr nid r h; simp [CreateEvent, h]
  · intro db hdr eid h; simp [GetEvent, h]
  · intro db hdr h; simp [ListEvents, h]
  · intro db hdr r h; simp [UpdateEvent, h]
  · intro db hdr eid h; simp [DeleteEvent, h]
  · intro db hdr r h; simp [CreateSchedule, h]
  · intro db hdr h; simp [ListSchedules, h]
  · intro db hdr r h; simp [UpdateSchedule, h]
  · intro db hdr uid h; simp [DeleteSchedule, h]
  · intro db hdr nid r h; simp [CreateAppointment, h]
  · intro db hdr aid h; simp [GetAppointment, h]
  · intro db hdr h; simp [ListAppointments, h]
  · intro db hdr r h; simp [UpdateAppointment, h]
  · intro db hdr aid h; simp [DeleteAppointment, h]
  · intro db t ht hsp hno
    rw [authenticate, extractToken_bearer t ht hsp]
    exact List.find?_eq_none.mpr (fun u hu => by simpa using hno u hu)

/-- C3, witness: the theorem applied over the sample database to a request
with an unknown token (its `GetUser` part and its indistinguishability part). -/
theorem C3_witness :
    GetUser dbMain (some "Bearer zz") "u1" = ⟨.error .unauthenticated, dbMain, false⟩ ∧
    authenticate dbMain (some ("Bearer " ++ "zz")) = none := by
  constructor
  · exact C3_unauthenticated_first.1 dbMain (some "Bearer zz") "u1"
      (C3_unauthenticated_first.2.2.2.2.2.2.2.2.2.2.2.2.2.2.2.2.2.2.2.2 dbMain "zz"
        (by decide) (by decide) (by decide))
  · exact C3_unauthenticated_first.2.2.2.2.2.2.2.2.2.2.2.2.2.2.2.2.2.2.2.2 dbMain "zz"
      (by decide) (by decide) (by decide)

/-! ### C4 — token lifecycle -/

/-- C4: a token authenticates exactly the account currently storing it, so
(1) under the invariant that a live token has at most one holder,
`Bearer <t>` authenticates an account iff that account's stored token is `t`;
(2) after `Login` rotates an account's token, a previously issued token of
that account no longer authenticates anyone; (3) after `Logout` clears the
token, replaying the very header that just authenticated yields an
authentication failure (hence UNAUTHENTICATED on every protected call, by
the C3 shape of the handlers). -/
theorem C4_token_binding :
    (∀ (db : Db) (t : String) (u : User), t ≠ "" → ' ' ∉ t.toList →
      (∀ v ∈ db.users, ∀ w ∈ db.users, v.token = some t → w.token = some t → v = w) →
      (authenticate db (some ("Bearer " ++ t)) = some u ↔ u ∈ db.users ∧ u.token = some t)) ∧
    (∀ (db : Db) (newTok email pw oldTok : String) (u : User),
      db.users.find? (fun v => v.email = email) = some u →
      u.password = pw → email ≠ "" → pw ≠ "" →
      oldTok ≠ newTok → oldTok ≠ "" → ' ' ∉ oldTok.toList →
      (∀ v ∈ db.users, v.token = some oldTok → v.id = u.id) →
      (Login db newTok email pw).out = .ok newTok ∧
      authenticate (Login db newTok email pw).db (some ("Bearer " ++ oldTok)) = none) ∧
    (∀ (db : Db) (hdr : Option String) (u : User),
      authenticate db hdr = some u →
      (∀ v ∈ db.users, v.token = u.token → v.id = u.id) →
      (Logout db hdr).out = .ok "Logout successful" ∧
      authenticate (Logout db hdr).db hdr = none) := by
  refine ⟨?_, ?_, ?_⟩
  · intro db t u ht hsp huniq
    rw [authenticate, extractToken_bearer t ht hsp]
    constructor
    · intro h
      exact ⟨List.mem_of_find?_eq_some h, by simpa using List.find?_some h⟩
    · rintro ⟨hmem, htok⟩
      cases hfind : db.users.find? (fun v => v.token = some t) with
      | none =>
        exact absurd (by simpa using List.find?_eq_none.mp hfind u hmem) (by simp [htok])
      | some w =>
        have hw : w.token = some t := by simpa using List.find?_some hfind
        have hwu : w = u := huniq w (List.mem_of_find?_eq_some hfind) u hmem hw htok
        exact hwu ▸ hfind
  · intro db newTok email pw oldTok u hfind hpw hem hpwne hne hone hosp hold
    have hlogin : Login db newTok email pw =
        ⟨.ok newTok,
          { db with users := db.users.map (fun v => if v.id = u.id then { v with token := some newTok } else v) },
          true⟩ := by
      rw [Login]
      simp [hem, hpwne, hfind, hpw]
    refine ⟨by rw [hlogin], ?_⟩
    rw [hlogin, authenticate, extractToken_bearer oldTok hone hosp]
    refine List.find?_eq_none.mpr ?_
    intro w hw
    rcases List.mem_map.mp hw with ⟨v, hv, rfl⟩
    by_cases hid : v.id = u.id
    · simp [hid, hne.symm]
    · simp only [hid, if_false, decide_eq_true_eq]
      intro hvt
      exact hid (hold v hv hvt)
  · intro db hdr u hauth huniq
    have hlogout : Logout db hdr =
        ⟨.ok "Logout successful",
          { db with users := db.users.map (fun v => if v.id = u.id then { v with token := none } else v) },
          true⟩ := by
      rw [Logout, hauth]
    cases hext : extractToken hdr with
    | none => rw [authenticate, hext] at hauth; exact absurd hauth (by simp)
    | some t =>
      have hfind : db.users.find? (fun v => v.token = some t) = some u := by
        rw [authenticate, hext] at hauth; exact hauth
      have hut : u.token = some t := by simpa using List.find?_some hfind
      refine ⟨by rw [hlogout], ?_⟩
      rw [hlogout, authenticate, hext]
      refine List.find?_eq_none.mpr ?_
      intro w hw
      rcases List.mem_map.mp hw with ⟨v, hv, rfl⟩
      by_cases hid : v.id = u.id
      · simp [hid]
      · simp only [hid, if_false, decide_eq_true_eq]
        intro hvt
        exact hid (huniq v hv (hvt.trans hut.symm))

/-- C4, witness: the three parts applied over the sample database — `t1`
authenticates Alice; a login that rotates Alice's token to `t9` kills `t1`;
a logout by Alice kills her own just-used header. -/
theorem C4_witness :
    authenticate dbMain (some ("Bearer " ++ "t1")) = some userA ∧
    (Login dbMain "t9" "alice@example.com" "pw1").out = .ok "t9" ∧
    authenticate (Login dbMain "t9" "alice@example.com" "pw1").db (some ("Bearer " ++ "t1")) = none ∧
    (Logout dbMain hdrA).out = .ok "Logout successful" ∧
    authenticate (Logout dbMain hdrA).db hdrA = none := by
  have h1 := (C4_token_binding.1 dbMain "t1" userA (by decide) (by decide) (by decide)).mpr
    ⟨by simp [dbMain], rfl⟩
  have h2 := C4_token_binding.2.1 dbMain "t9" "alice@example.com" "pw1" "t1" userA
    rfl rfl (by decide) (by decide) (by decide) (by decide) (by decide) (by decide)
  have h3 := C4_token_binding.2.2 dbMain hdrA userA rfl (by decide)
  exact ⟨h1, h2.1, h2.2, h3.1, h3.2⟩

/-! ### C10 — GetAppointment scopes by owner and answers NOT_FOUND -/

/-- C10: `GetAppointment` folds ownership into the lookup
(`WHERE id = ? AND userId = ?`), so for an authenticated caller it yields
NOT_FOUND (never PERMISSION_DENIED, and with no store change) whenever no
appointment with the requested id is owned by the caller — in particular when
the appointment exists but belongs to someone else — and succeeds, returning
a row owned by the caller, exactly when the caller owns an appointment with
that id. -/
theorem C10_get_appointment_owner_scoped :
    (∀ (db : Db) (hdr : Option String) (aid : String) (u : User),
      authenticate db hdr = some u →
      (∀ a ∈ db.appointments, a.id = aid → a.userId ≠ u.id) →
      GetAppointment db hdr aid = ⟨.error .notFound, db, false⟩) ∧
    (∀ (db : Db) (hdr : Option String) (aid : String) (u : User) (a : Appointment),
      authenticate db hdr = some u →
      a ∈ db.appointments → a.id = aid → a.userId = u.id →
      ∃ v, (GetAppointment db hdr aid).out = .ok v ∧ v.user_id = u.id) := by
  constructor
  · intro db hdr aid u hauth hno
    have hf : db.appointments.find? (fun a => a.id = aid && a.userId = u.id) = none := by
      refine List.find?_eq_none.mpr ?_
      intro a ha
      simp only [Bool.and_eq_true, decide_eq_true_eq, not_and]
      exact fun h1 => hno a ha h1
    simp [GetAppointment, hauth, hf]
  · intro db hdr aid u a hauth hmem hid hown
    cases hf : db.appointments.find? (fun x => x.id = aid && x.userId = u.id) with
    | none =>
      exact absurd (List.find?_eq_none.mp hf a hmem) (by simp [hid, hown])
    | some w =>
      have hw : w.id = aid ∧ w.userId = u.id := by simpa using List.find?_some hf
      exact ⟨⟨w.id, w.eventId, w.userId, w.inviteeEmail, w.startTime, w.endTime, w.status⟩,
        by simp [GetAppointment, hauth, hf], hw.2⟩

/-- C10, witness: over the sample database, Bob asking for Alice's
appointment `a1` gets NOT_FOUND, while Alice's own request succeeds. -/
theorem C10_witness :
    GetAppointment dbMain hdrB "a1" = ⟨.error .notFound, dbMain, false⟩ ∧
    ∃ v, (GetAppointment dbMain hdrA "a1").out = .ok v ∧ v.user_id = userA.id := by
  constructor
  · exact C10_get_appointment_owner_scoped.1 dbMain hdrB "a1" userB rfl (by decide)
  · exact C10_get_appointment_owner_scoped.2 dbMain hdrA "a1" userA appt1 rfl
      (by simp [dbMain]) rfl rfl

/-! ### C9 — account-listing pagination echoes and counts the page -/

/-- C9: `ListUsers` echoes the supplied `page` and `page_size` and reports as
`total` the length of the returned page (hence at most `page_size` when that
is nonnegative) — not the full row count; the closed conjunct exhibits this on
a three-account table paged with `page_size = 2`, where `total` is `2`. -/
theorem C9_pagination_total_is_page_length :
    (∀ (db : Db) (hdr : Option String) (page psize : Int) (u : User),
      authenticate db hdr = some u → 0 ≤ psize →
      ∃ resp, ListUsers db hdr page psize = ⟨.ok resp, db, false⟩ ∧
        resp.pagination.page = page ∧
        resp.pagination.page_size = psize ∧
        resp.pagination.total = resp.users.length ∧
        resp.users.length ≤ psize.toNat) ∧
    ((ListUsers dbMain hdrA 1 2).out = .ok ⟨[userA.view, userB.view], ⟨1, 2, 2⟩⟩ ∧
      dbMain.users.length = 3) := by
  constructor
  · intro db hdr page psize u hauth hps
    refine ⟨⟨(sqlLimitOffset db.users psize ((page - 1) * psize)).map User.view,
        ⟨page, psize, ((sqlLimitOffset db.users psize ((page - 1) * psize)).map User.view).length⟩⟩,
      by simp only [ListUsers, hauth], rfl, rfl, rfl, ?_⟩
    simp only [List.length_map, sqlLimitOffset, if_neg (not_lt.mpr hps)]
    exact List.length_take_le _ _
  · exact ⟨rfl, rfl⟩

/-- C9, witness: the universal part applied to the sample database at
`page = 2, page_size = 2`. -/
theorem C9_witness :
    ∃ resp, ListUsers dbMain hdrA 2 2 = ⟨.ok resp, dbMain, false⟩ ∧
      resp.pagination.page = 2 ∧
      resp.pagination.page_size = 2 ∧
      resp.pagination.total = resp.users.length ∧
      resp.users.length ≤ (2 : Int).toNat :=
  C9_pagination_total_is_page_length.1 dbMain hdrA 2 2 userA rfl (by decide)

/-! ### C5 — who owns a freshly created appointment -/

/-- C5, counterexample. The claim says the stored `owner_id` of a created
appointment is the owner of the referenced Event Type. Bob (`u2`) books an
appointment on Alice's event `e1` (owned by `u1`): the stored and returned
`user_id` is `u2`, the caller — not the event's owner `u1`. -/
theorem C5_counterexample :
    (CreateAppointment dbMain hdrB "a2"
        ⟨"e1", "guest@example.com", "2025-02-02T09:00", "2025-02-02T09:30"⟩).out =
      .ok ⟨"a2", "e1", "u2", "guest@example.com", "2025-02-02T09:00", "2025-02-02T09:30", "scheduled"⟩ ∧
    dbMain.events = [event1] ∧ event1.userId = "u1" ∧ userB.id = "u2" := by
  exact ⟨rfl, rfl, rfl, rfl⟩

/-- C5, amended: the stored `owner_id` of every appointment created through
`CreateAppointment` is the authenticated caller's id; the Event Type
referenced by `event_id` is never consulted — the outcome does not depend on
the events table at all (so the owner coincides with the Event Type's owner
only when the caller happens to be that owner). -/
theorem C5_amended_owner_is_caller :
    ∀ (db : Db) (hdr : Option String) (nid : String) (r : CreateAppointmentReq) (u : User),
      authenticate db hdr = some u →
      r.event_id ≠ "" → r.invitee_email ≠ "" → r.start_time ≠ "" → r.end_time ≠ "" →
      isValidEmail r.invitee_email = true →
      (∀ a ∈ db.appointments, a.id ≠ nid) →
      CreateAppointment db hdr nid r =
        ⟨.ok ⟨nid, r.event_id, u.id, r.invitee_email, r.start_time, r.end_time, "scheduled"⟩,
          { db with appointments := db.appointments ++
            [⟨nid, r.event_id, u.id, r.invitee_email, r.start_time, r.end_time, "scheduled"⟩] },
          true⟩ ∧
      ∀ evs : List Event,
        (CreateAppointment { db with events := evs } hdr nid r).out =
          (CreateAppointment db hdr nid r).out := by
  intro db hdr nid r u hauth h1 h2 h3 h4 hval hfresh
  have hany : db.appointments.any (fun a => a.id = nid) = false := by
    simp only [List.any_eq_false, decide_eq_true_eq]
    exact hfresh
  have hmain : CreateAppointment db hdr nid r =
      ⟨.ok ⟨nid, r.event_id, u.id, r.invitee_email, r.start_time, r.end_time, "scheduled"⟩,
        { db with appointments := db.appointments ++
          [⟨nid, r.event_id, u.id, r.invitee_email, r.start_time, r.end_time, "scheduled"⟩] },
        true⟩ := by
    simp [CreateAppointment, hauth, h1, h2, h3, h4, hval, hany]
  refine ⟨hmain, ?_⟩
  intro evs
  have hauth' : authenticate { db with events := evs } hdr = some u := hauth
  have hmain' : CreateAppointment { db with events := evs } hdr nid r =
      ⟨.ok ⟨nid, r.event_id, u.id, r.invitee_email, r.start_time, r.end_time, "scheduled"⟩,
        { { db with events := evs } with appointments := db.appointments ++
          [⟨nid, r.event_id, u.id, r.invitee_email, r.start_time, r.end_time, "scheduled"⟩] },
        true⟩ := by
    simp [CreateAppointment, hauth', h1, h2, h3, h4, hval, hany]
  rw [hmain, hmain']

/-- C5, witness: Alice books an appointment on her own event; the stored
owner is `u1` as the theorem dictates, and replacing the events table by the
empty list does not change the outcome. -/
theorem C5_witness :
    CreateAppointment dbMain hdrA "a3" ⟨"e1", "x@y.com", "2025-03-03T08:00", "2025-03-03T08:30"⟩ =
      ⟨.ok ⟨"a3", "e1", "u1", "x@y.com", "2025-03-03T08:00", "2025-03-03T08:30", "scheduled"⟩,
        { dbMain with appointments := dbMain.appointments ++
          [⟨"a3", "e1", "u1", "x@y.com", "2025-03-03T08:00", "2025-03-03T08:30", "scheduled"⟩] },
        true⟩ ∧
    (CreateAppointment { dbMain with events := [] } hdrA "a3"
        ⟨"e1", "x@y.com", "2025-03-03T08:00", "2025-03-03T08:30"⟩).out =
      (CreateAppointment dbMain hdrA "a3"
        ⟨"e1", "x@y.com", "2025-03-03T08:00", "2025-03-03T08:30"⟩).out := by
  have h := C5_amended_owner_is_caller dbMain hdrA "a3"
    ⟨"e1", "x@y.com", "2025-03-03T08:00", "2025-03-03T08:30"⟩ userA rfl
    (by decide) (by decide) (by decide) (by decide) (by decide) (by decide)
  exact ⟨h.1, h.2 []⟩

/-! ### C2 — order of the checks -/

/-- C2, counterexample. The claim says that (outside account creation)
validation always precedes the ownership comparison, so a request failing
both reports INVALID_ARGUMENT. `UpdateUser` however runs
`checkOwnership(authenticatedUser.id, user_id)` before its zero-field
validation: Alice's update of account `u2` supplying zero mutable fields
fails both checks yet reports PERMISSION_DENIED. -/
theorem C2_counterexample :
    ((!(JVal.undef).truthy && !(JVal.undef).truthy && !(JVal.undef).truthy &&
        !(JVal.undef).truthy) = true) ∧
    (UpdateUser dbMain hdrA ⟨"u2", .undef, .undef, .undef, .undef⟩).out =
      .error .permissionDenied := by
  exact ⟨rfl, rfl⟩

/-- C2, amended: authentication always runs first; for event and appointment
updates the zero-field validation precedes existence and ownership, and for
schedule updates validation precedes ownership; but account update/delete
compare the caller's id against the target `user_id` immediately after
authentication — before validation — so an account request failing both
validation and ownership reports PERMISSION_DENIED, and schedule mutations
check ownership before existence. -/
theorem C2_amended_check_order :
    (∀ (db : Db) (hdr : Option String) (r : UpdateUserReq) (u : User),
      authenticate db hdr = some u → u.id ≠ r.user_id →
      UpdateUser db hdr r = ⟨.error .permissionDenied, db, false⟩) ∧
    (∀ (db : Db) (hdr : Option String) (uid : String) (u : User),
      authenticate db hdr = some u → u.id ≠ uid →
      DeleteUser db hdr uid = ⟨.error .permissionDenied, db, false⟩) ∧
    (∀ (db : Db) (hdr : Option String) (r : UpdateUserReq) (u : User),
      authenticate db hdr = some u → u.id = r.user_id →
      (!r.name.truthy && !r.email.truthy && !r.password.truthy && !r.timezone.truthy) = true →
      UpdateUser db hdr r = ⟨.error .invalidArgument, db, false⟩) ∧
    (∀ (db : Db) (hdr : Option String) (r : UpdateEventReq) (u : User),
      authenticate db hdr = some u →
      (!r.name.truthy && r.duration.eqNull && !r.description.truthy && !r.color.truthy) = true →
      UpdateEvent db hdr r = ⟨.error .invalidArgument, db, false⟩) ∧
    (∀ (db : Db) (hdr : Option String) (r : UpdateAppointmentReq) (u : User),
      authenticate db hdr = some u →
      (!r.event_id.truthy && !r.invitee_email.truthy && !r.start_time.truthy &&
        !r.end_time.truthy && !r.status.truthy) = true →
      UpdateAppointment db hdr r = ⟨.error .invalidArgument, db, false⟩) ∧
    (∀ (db : Db) (hdr : Option String) (r : UpdateScheduleReq) (u : User),
      authenticate db hdr = some u → r.availability = none →
      UpdateSchedule db hdr r = ⟨.error .invalidArgument, db, false⟩) ∧
    (∀ (db : Db) (hdr : Option String) (r : UpdateScheduleReq) (a : Availability) (u : User),
      authenticate db hdr = some u → r.availability = some a → u.id ≠ r.user_id →
      UpdateSchedule db hdr r = ⟨.error .permissionDenied, db, false⟩) := by
  refine ⟨?_, ?_, ?_, ?_, ?_, ?_, ?_⟩
  · intro db hdr r u hauth hne
    simp [UpdateUser, hauth, hne]
  · intro db hdr uid u hauth hne
    simp [DeleteUser, hauth, hne]
  · intro db hdr r u hauth heq hz
    simp [UpdateUser, hauth, heq, hz]
  · intro db hdr r u hauth hz
    simp [UpdateEvent, hauth, hz]
  · intro db hdr r u hauth hz
    simp [UpdateAppointment, hauth, hz]
  · intro db hdr r u hauth hnone
    simp [UpdateSchedule, hauth, hnone]
  · intro db hdr r a u hauth hsome hne
    simp [UpdateSchedule, hauth, hsome, hne]

/-- C2, witness: the amended ordering applied over the sample database —
Alice updating `u2` with zero fields hits PERMISSION_DENIED, Alice updating
her own account with zero fields hits INVALID_ARGUMENT, a zero-field event
update is INVALID_ARGUMENT before ownership, and Alice's schedule update
aimed at `u2` is PERMISSION_DENIED with no schedule consulted. -/
theorem C2_witness :
    UpdateUser dbMain hdrA ⟨"u2", .undef, .undef, .undef, .undef⟩ =
      ⟨.error .permissionDenied, dbMain, false⟩ ∧
    UpdateUser dbMain hdrA ⟨"u1", .undef, .undef, .undef, .undef⟩ =
      ⟨.error .invalidArgument, dbMain, false⟩ ∧
    UpdateEvent dbMain hdrB ⟨"e1", .undef, .jnull, .undef, .undef⟩ =
      ⟨.error .invalidArgument, dbMain, false⟩ ∧
    UpdateSchedule dbMain hdrA ⟨"u2", some availX⟩ =
      ⟨.error .permissionDenied, dbMain, false⟩ := by
  refine ⟨?_, ?_, ?_, ?_⟩
  · exact C2_amended_check_order.1 dbMain hdrA ⟨"u2", .undef, .undef, .undef, .undef⟩ userA
      rfl (by decide)
  · exact C2_amended_check_order.2.2.1 dbMain hdrA ⟨"u1", .undef, .undef, .undef, .undef⟩ userA
      rfl rfl (by decide)
  · exact C2_amended_check_order.2.2.2.1 dbMain hdrB ⟨"e1", .undef, .jnull, .undef, .undef⟩ userB
      rfl (by decide)
  · exact C2_amended_check_order.2.2.2.2.2.2 dbMain hdrA ⟨"u2", some availX⟩ availX userA
      rfl rfl (by decide)

/-! ### C1 — existence before ownership -/

/-- C1, counterexample. The claim says every owner-scoped mutation reports
NOT_FOUND on a nonexistent target regardless of who asks, with
PERMISSION_DENIED only after confirmed existence. With an empty schedules
table, Alice's `UpdateSchedule` aimed at `u2` reports PERMISSION_DENIED even
though no such schedule exists: `checkOwnership` runs before any existence
check in the schedule service. -/
theorem C1_counterexample :
    dbMain.schedules = [] ∧
    (UpdateSchedule dbMain hdrA ⟨"u2", some availX⟩).out = .error .permissionDenied ∧
    (DeleteSchedule dbMain hdrA "u2").out = .error .permissionDenied := by
  exact ⟨rfl, rfl, rfl⟩

/-- C1, amended: event and appointment update/delete check existence first
(NOT_FOUND on a miss, for any authenticated caller) and ownership second
(PERMISSION_DENIED exactly when the found row's owner differs); schedule
update/delete instead compare ownership against the request's `user_id`
before any existence check, so a caller aiming at another user's (possibly
nonexistent) schedule gets PERMISSION_DENIED, and NOT_FOUND arises only when
the caller aims at their own `user_id` and owns no schedule row. -/
theorem C1_amended_existence_vs_ownership :
    (∀ (db : Db) (hdr : Option String) (r : UpdateEventReq) (u : User),
      authenticate db hdr = some u →
      (!r.name.truthy && r.duration.eqNull && !r.description.truthy && !r.color.truthy) = false →
      (r.color.truthy && !isValidHexColor r.color.asString) = false →
      db.events.find? (fun e => e.id = r.event_id) = none →
      UpdateEvent db hdr r = ⟨.error .notFound, db, false⟩) ∧
    (∀ (db : Db) (hdr : Option String) (r : UpdateEventReq) (u : User) (e : Event),
      authenticate db hdr = some u →
      (!r.name.truthy && r.duration.eqNull && !r.description.truthy && !r.color.truthy) = false →
      (r.color.truthy && !isValidHexColor r.color.asString) = false →
      db.events.find? (fun x => x.id = r.event_id) = some e → e.userId ≠ u.id →
      UpdateEvent db hdr r = ⟨.error .permissionDenied, db, false⟩) ∧
    (∀ (db : Db) (hdr : Option String) (eid : String) (u : User),
      authenticate db hdr = some u →
      db.events.find? (fun e => e.id = eid) = none →
      DeleteEvent db hdr eid = ⟨.error .notFound, db, false⟩) ∧
    (∀ (db : Db) (hdr : Option String) (eid : String) (u : User) (e : Event),
      authenticate db hdr = some u →
      db.events.find? (fun x => x.id = eid) = some e → e.userId ≠ u.id →
      DeleteEvent db hdr eid = ⟨.error .permissionDenied, db, false⟩) ∧
    (∀ (db : Db) (hdr : Option String) (r : UpdateAppointmentReq) (u : User),
      authenticate db hdr = some u →
      (!r.event_id.truthy && !r.invitee_email.truthy && !r.start_time.truthy &&
        !r.end_time.truthy && !r.status.truthy) = false →
      (r.invitee_email.truthy && !isValidEmail r.invitee_email.asString) = false →
      db.appointments.find? (fun a => a.id = r.appointment_id) = none →
      UpdateAppointment db hdr r = ⟨.error .notFound, db, false⟩) ∧
    (∀ (db : Db) (hdr : Option String) (r : UpdateAppointmentReq) (u : User) (a : Appointment),
      authenticate db hdr = some u →
      (!r.event_id.truthy && !r.invitee_email.truthy && !r.start_time.truthy &&
        !r.end_time.truthy && !r.status.truthy) = false →
      (r.invitee_email.truthy && !isValidEmail r.invitee_email.asString) = false →
      db.appointments.find? (fun x => x.id = r.appointment_id) = some a → a.userId ≠ u.id →
      UpdateAppointment db hdr r = ⟨.error .permissionDenied, db, false⟩) ∧
    (∀ (db : Db) (hdr : Option String) (aid : String) (u : User),
      authenticate db hdr = some u →
      db.appointments.find? (fun a => a.id = aid) = none →
      DeleteAppointment db hdr aid = ⟨.error .notFound, db, false⟩) ∧
    (∀ (db : Db) (hdr : Option String) (aid : String) (u : User) (a : Appointment),
      authenticate db hdr = some u →
      db.appointments.find? (fun x => x.id = aid) = some a → a.userId ≠ u.id →
      DeleteAppointment db hdr aid = ⟨.error .permissionDenied, db, false⟩) ∧
    (∀ (db : Db) (hdr : Option String) (r : UpdateScheduleReq) (a : Availability) (u : User),
      authenticate db hdr = some u → r.availability = some a → u.id ≠ r.user_id →
      UpdateSchedule db hdr r = ⟨.error .permissionDenied, db, false⟩) ∧
    (∀ (db : Db) (hdr : Option String) (r : UpdateScheduleReq) (a : Availability) (u : User),
      authenticate db hdr = some u → r.availability = some a → u.id = r.user_id →
      (∀ s ∈ db.schedules, s.userId ≠ r.user_id) →
      (UpdateSchedule db hdr r).out = .error .notFound) ∧
    (∀ (db : Db) (hdr : Option String) (uid : String) (u : User),
      authenticate db hdr = some u → u.id ≠ uid →
      DeleteSchedule db hdr uid = ⟨.error .permissionDenied, db, false⟩) ∧
    (∀ (db : Db) (hdr : Option String) (uid : String) (u : User),
      authenticate db hdr = some u → u.id = uid →
      (∀ s ∈ db.schedules, s.userId ≠ uid) →
      (DeleteSchedule db hdr uid).out = .error .notFound) := by
  refine ⟨?_, ?_, ?_, ?_, ?_, ?_, ?_, ?_, ?_, ?_, ?_, ?_⟩
  · intro db hdr r u hauth hz hc hfind
    simp [UpdateEvent, hauth, hz, hc, hfind]
  · intro db hdr r u e hauth hz hc hfind hown
    simp [UpdateEvent, hauth, hz, hc, hfind, hown]
  · intro db hdr eid u hauth hfind
    simp [DeleteEvent, hauth, hfind]
  · intro db hdr eid u e hauth hfind hown
    simp [DeleteEvent, hauth, hfind, hown]
  · intro db hdr r u hauth hz he hfind
    simp [UpdateAppointment, hauth, hz, he, hfind]
  · intro db hdr r u a hauth hz he hfind hown
    simp [UpdateAppointment, hauth, hz, he, hfind, hown]
  · intro db hdr aid u hauth hfind
    simp [DeleteAppointment, hauth, hfind]
  · intro db hdr aid u a hauth hfind hown
    simp [DeleteAppointment, hauth, hfind, hown]
  · intro db hdr r a u hauth hsome hne
    simp [UpdateSchedule, hauth, hsome, hne]
  · intro db hdr r a u hauth hsome heq hno
    have hfil : db.schedules.filter (fun s => s.userId = r.user_id) = [] := by
      rw [List.filter_eq_nil_iff]
      intro s hs
      simp only [decide_eq_true_eq]
      exact hno s hs
    simp [UpdateSchedule, hauth, hsome, heq, hfil]
  · intro db hdr uid u hauth hne
    simp [DeleteSchedule, hauth, hne]
  · intro db hdr uid u hauth heq hno
    have hfil : db.schedules.filter (fun s => s.userId = uid) = [] := by
      rw [List.filter_eq_nil_iff]
      intro s hs
      simp only [decide_eq_true_eq]
      exact hno s hs
    simp [DeleteSchedule, hauth, heq, hfil]

/-- C1, witness: the amended ordering applied over the sample database —
a nonexistent event yields NOT_FOUND for any caller, Bob's update of Alice's
event yields PERMISSION_DENIED, Bob's update of Alice's (nonexistent-for-him)
schedule target yields PERMISSION_DENIED, and Bob's update of his own missing
schedule yields NOT_FOUND. -/
theorem C1_witness :
    UpdateEvent dbMain hdrB ⟨"e9", .jstr "New", .jnum 15, .undef, .undef⟩ =
      ⟨.error .notFound, dbMain, false⟩ ∧
    UpdateEvent dbMain hdrB ⟨"e1", .jstr "New", .jnum 15, .undef, .undef⟩ =
      ⟨.error .permissionDenied, dbMain, false⟩ ∧
    UpdateSchedule dbMain hdrB ⟨"u1", some availX⟩ =
      ⟨.error .permissionDenied, dbMain, false⟩ ∧
    (UpdateSchedule dbMain hdrB ⟨"u2", some availX⟩).out = .error .notFound := by
  refine ⟨?_, ?_, ?_, ?_⟩
  · exact C1_amended_existence_vs_ownership.1 dbMain hdrB
      ⟨"e9", .jstr "New", .jnum 15, .undef, .undef⟩ userB rfl (by decide) (by decide) rfl
  · exact C1_amended_existence_vs_ownership.2.1 dbMain hdrB
      ⟨"e1", .jstr "New", .jnum 15, .undef, .undef⟩ userB event1 rfl (by decide) (by decide)
      rfl (by decide)
  · exact C1_amended_existence_vs_ownership.2.2.2.2.2.2.2.2.1 dbMain hdrB
      ⟨"u1", some availX⟩ availX userB rfl rfl (by decide)
  · exact C1_amended_existence_vs_ownership.2.2.2.2.2.2.2.2.2.1 dbMain hdrB
      ⟨"u2", some availX⟩ availX userB rfl rfl rfl (by decide)

/-! ### C6 — zero-field updates -/

/-- C6, code bug, evaluated at the failing input. The claim (and the
service's own comment "Validate at least one field is provided") requires a
zero-field update to report INVALID_ARGUMENT with no store write. User,
appointment and schedule updates do exactly that (last three conjuncts). But
`UpdateEvent` guards with `duration === null` while an absent optional int32
arrives as `undefined`: the guard misfires, the handler runs past existence
and ownership and executes `UPDATE events SET duration = NULL`, which the
`NOT NULL` column rejects — the repository's own test works around this
("Adding duration to satisfy NOT NULL constraint" in tests/test.js). So the
owner's zero-field event update attempts a store write and surfaces a raw
constraint failure instead of INVALID_ARGUMENT. -/
theorem C6_zero_field_update_event_bug :
    (UpdateEvent dbMain hdrA ⟨"e1", .undef, .undef, .undef, .undef⟩).out =
      .error .sqliteConstraint ∧
    (UpdateEvent dbMain hdrA ⟨"e1", .undef, .undef, .undef, .undef⟩).wrote = true ∧
    UpdateUser dbMain hdrB ⟨"u2", .undef, .undef, .undef, .undef⟩ =
      ⟨.error .invalidArgument, dbMain, false⟩ ∧
    UpdateAppointment dbMain hdrA ⟨"a1", .undef, .undef, .undef, .undef, .undef⟩ =
      ⟨.error .invalidArgument, dbMain, false⟩ ∧
    UpdateSchedule dbMain hdrA ⟨"u1", none⟩ =
      ⟨.error .invalidArgument, dbMain, false⟩ := by
  exact ⟨rfl, rfl, rfl, rfl, rfl⟩

/-! ### Availability JSON round-trip lemmas -/

/-- Rebuilding a string from its characters is the identity. -/
theorem mk_toList (s : String) : String.mk s.toList = s := rfl

/-- Stripping a literal prefix from its own extension succeeds. -/
theorem stripLit_append (p r : List Char) : stripLitChars p (p ++ r) = some r := by
  induction p with
  | nil => rfl
  | cons c cs ih => simp [stripLitChars, ih]

/-- Stripping a single expected character. -/
theorem stripLit_cons (c : Char) (r : List Char) : stripLitChars [c] (c :: r) = some r := by
  simp [stripLitChars]

/-- A clean string contains no quote character. -/
theorem not_quote_of_cleanStr (s : String) (h : cleanStr s = true) : '"' ∉ s.toList := by
  simp only [cleanStr, List.all_eq_true] at h
  intro hm
  have hc := h _ hm
  simp [cleanChar] at hc

/-- Reading a quote-free string body stops exactly at the closing quote. -/
theorem readStringBody_append (s r : List Char) (h : '"' ∉ s) :
    readStringBody (s ++ '"' :: r) = some (s, r) := by
  induction s with
  | nil => simp [readStringBody]
  | cons c cs ih =>
    have hc : c ≠ '"' := fun hc => h (hc ▸ List.mem_cons_self c cs)
    have hcs : '"' ∉ cs := fun hm => h (List.mem_cons_of_mem c hm)
    simp only [List.cons_append, readStringBody, if_neg hc, List.append_eq]
    rw [ih hcs]

/-- Parsing consumes exactly one printed time range. -/
theorem parseTimeRange_chars (t : TimeRange) (r : List Char)
    (h1 : cleanStr t.start_time = true) (h2 : cleanStr t.end_time = true) :
    parseTimeRange (timeRangeChars t ++ r) = some (t, r) := by
  have hq1 := not_quote_of_cleanStr _ h1
  have hq2 := not_quote_of_cleanStr _ h2
  simp only [timeRangeChars, List.append_assoc, List.cons_append, List.singleton_append]
  simp only [parseTimeRange, stripLit_append, readStringBody_append _ _ hq1,
    readStringBody_append _ _ hq2, stripLit_cons, mk_toList]
  rfl

/-- A serialized time range never starts with the array terminator. -/
theorem strip_rbracket_timeRangeChars (t : TimeRange) (x : List Char) :
    stripLitChars [']'] (timeRangeChars t ++ x) = none := by
  simp [timeRangeChars, startTimeKey, stripLitChars]

/-- Parsing consumes exactly a printed time-range tail. -/
theorem parseTimeRangeTail_chars (l : List TimeRange) :
    ∀ (fuel : Nat) (r : List Char), l.length ≤ fuel → l.all cleanTR = true →
    parseTimeRangeTail fuel (timeRangeTail l ++ r) = some (l, r) := by
  induction l with
  | nil =>
    intro fuel r _ _
    cases fuel <;> simp [parseTimeRangeTail, timeRangeTail, stripLitChars]
  | cons t rest ih =>
    intro fuel r hlen hclean
    cases fuel with
    | zero => exact absurd hlen (by simp)
    | succ f =>
      have hct : cleanTR t = true := by
        have := (List.all_eq_true.mp hclean) t (List.mem_cons_self t rest)
        simpa using this
      have hcr : rest.all cleanTR = true := by
        refine List.all_eq_true.mpr ?_
        intro x hx
        exact (List.all_eq_true.mp hclean) x (List.mem_cons_of_mem t hx)
      have h12 := hct
      rw [cleanTR, Bool.and_eq_true] at h12
      have h1 := h12.1
      have h2 := h12.2
      have hpt := parseTimeRange_chars t (timeRangeTail rest ++ r) h1 h2
      have hih := ih f r (Nat.succ_le_succ_iff.mp hlen) hcr
      simp only [timeRangeTail, List.cons_append, List.append_assoc]
      simp [parseTimeRangeTail, stripLitChars, hpt, hih]

/-- Parsing consumes exactly a printed time-range array. -/
theorem parseTimeRangeList_chars (l : List TimeRange) (fuel : Nat) (r : List Char)
    (hlen : l.length ≤ fuel) (hclean : l.all cleanTR = true) :
    parseTimeRangeList fuel (timeRangeItems l ++ r) = some (l, r) := by
  cases l with
  | nil => simp [parseTimeRangeList, timeRangeItems, stripLitChars]
  | cons t rest =>
    have hct : cleanTR t = true := by
      have := (List.all_eq_true.mp hclean) t (List.mem_cons_self t rest)
      simpa using this
    have hcr : rest.all cleanTR = true := by
      refine List.all_eq_true.mpr ?_
      intro x hx
      exact (List.all_eq_true.mp hclean) x (List.mem_cons_of_mem t hx)
    have h12 := hct
    rw [cleanTR, Bool.and_eq_true] at h12
    have hpt := parseTimeRange_chars t (timeRangeTail rest ++ r) h12.1 h12.2
    have hih := parseTimeRangeTail_chars rest fuel r
      (le_trans (Nat.le_succ _) hlen) hcr
    simp only [timeRangeItems, List.append_assoc]
    simp [parseTimeRangeList, strip_rbracket_timeRangeChars, hpt, hih]

/-- A serialized day entry never starts with the array terminator. -/
theorem strip_rbracket_dayChars (d : DaySchedule) (x : List Char) :
    stripLitChars [']'] (dayChars d ++ x) = none := by
  simp [dayChars, dayKey, stripLitChars]

/-- Parsing consumes exactly one printed day entry. -/
theorem parseDay_chars (d : DaySchedule) (fuel : Nat) (r : List Char)
    (hfuel : d.time_ranges.length ≤ fuel) (hclean : cleanDay d = true) :
    parseDay fuel (dayChars d ++ r) = some (d, r) := by
  have h12 := hclean
  rw [cleanDay, Bool.and_eq_true] at h12
  have hqd := not_quote_of_cleanStr _ h12.1
  have hlist := parseTimeRangeList_chars d.time_ranges fuel ('\x7d' :: r) hfuel h12.2
  simp only [dayChars, List.append_assoc, List.cons_append, List.singleton_append,
    List.nil_append]
  simp only [parseDay, stripLit_append, readStringBody_append _ _ hqd, hlist, stripLit_cons,
    mk_toList]

/-- Parsing consumes exactly a printed day tail. -/
theorem parseDayTail_chars (l : List DaySchedule) :
    ∀ (fuel : Nat) (r : List Char), daysNeed l ≤ fuel → l.all cleanDay = true →
    parseDayTail fuel (dayTail l ++ r) = some (l, r) := by
  induction l with
  | nil =>
    intro fuel r _ _
    cases fuel <;> simp [parseDayTail, dayTail, stripLitChars]
  | cons d rest ih =>
    intro fuel r hlen hclean
    cases fuel with
    | zero =>
      exact absurd hlen (by simp [daysNeed])
    | succ f =>
      have hcd : cleanDay d = true := by
        have := (List.all_eq_true.mp hclean) d (List.mem_cons_self d rest)
        simpa using this
      have hcr : rest.all cleanDay = true := by
        refine List.all_eq_true.mpr ?_
        intro x hx
        exact (List.all_eq_true.mp hclean) x (List.mem_cons_of_mem d hx)
      have hd : d.time_ranges.length ≤ f := by
        simp only [daysNeed, List.length_cons, List.map_cons, List.sum_cons] at hlen
        omega
      have hr : daysNeed rest ≤ f := by
        simp only [daysNeed, List.length_cons, List.map_cons, List.sum_cons] at hlen ⊢
        omega
      have hpd := parseDay_chars d f (dayTail rest ++ r) hd hcd
      have hih := ih f r hr hcr
      simp only [dayTail, List.cons_append, List.append_assoc]
      simp [parseDayTail, stripLitChars, hpd, hih]

/-- Parsing consumes exactly the printed day array. -/
theorem parseDayList_chars (l : List DaySchedule) (fuel : Nat) (r : List Char)
    (hlen : daysNeed l ≤ fuel) (hclean : l.all cleanDay = true) :
    parseDayList fuel (dayItems l ++ r) = some (l, r) := by
  cases l with
  | nil => simp [parseDayList, dayItems, stripLitChars]
  | cons d rest =>
    have hcd : cleanDay d = true := by
      have := (List.all_eq_true.mp hclean) d (List.mem_cons_self d rest)
      simpa using this
    have hcr : rest.all cleanDay = true := by
      refine List.all_eq_true.mpr ?_
      intro x hx
      exact (List.all_eq_true.mp hclean) x (List.mem_cons_of_mem d hx)
    have hd : d.time_ranges.length ≤ fuel := by
      simp only [daysNeed, List.length_cons, List.map_cons, List.sum_cons] at hlen
      omega
    have hr : daysNeed rest ≤ fuel := by
      simp only [daysNeed, List.length_cons, List.map_cons, List.sum_cons] at hlen ⊢
      omega
    have hpd := parseDay_chars d fuel (dayTail rest ++ r) hd hcd
    have hih := parseDayTail_chars rest fuel r hr hcr
    simp only [dayItems, List.append_assoc]
    simp [parseDayList, strip_rbracket_dayChars, hpd, hih]

/-- A serialized day entry is nonempty plus one character per time range. -/
theorem len_dayChars (d : DaySchedule) : 1 + d.time_ranges.length ≤ (dayChars d).length := by
  have h1 : d.time_ranges.length ≤ (timeRangeItems d.time_ranges).length := by
    cases h : d.time_ranges with
    | nil => simp [timeRangeItems]
    | cons t rest =>
      have htail : ∀ l : List TimeRange, l.length ≤ (timeRangeTail l).length := by
        intro l
        induction l with
        | nil => simp [timeRangeTail]
        | cons x xs ih =>
          simp only [timeRangeTail, List.length_cons, List.length_append]
          omega
      simp only [timeRangeItems, List.length_append, List.length_cons]
      have := htail rest
      have h15 : 1 ≤ (timeRangeChars t).length := by
        simp [timeRangeChars, startTimeKey, List.length_append]
      omega
  simp only [dayChars, dayKey, timeRangesKey, List.length_append, List.length_cons]
  simp only [List.length_cons, List.length_nil] at h1 ⊢
  omega

/-- The printed day array dominates the fuel the parser needs. -/
theorem daysNeed_le_len_dayItems (l : List DaySchedule) : daysNeed l ≤ (dayItems l).length := by
  have htail : ∀ l' : List DaySchedule, daysNeed l' ≤ (dayTail l').length := by
    intro l'
    induction l' with
    | nil => simp [daysNeed, dayTail]
    | cons d rest ih =>
      have hd := len_dayChars d
      simp only [daysNeed, List.length_cons, List.map_cons, List.sum_cons] at ih ⊢
      simp only [dayTail, List.length_cons, List.length_append]
      omega
  cases l with
  | nil => simp [daysNeed, dayItems]
  | cons d rest =>
    have hd := len_dayChars d
    have hr := htail rest
    simp only [daysNeed, List.length_cons, List.map_cons, List.sum_cons] at hr ⊢
    simp only [dayItems, List.length_append]
    omega

/-- Serialize–store–deserialize is the identity on availability payloads
(whose strings contain no characters JSON would escape). -/
theorem parse_stringify_availability (a : Availability) (h : cleanAvail a = true) :
    parseAvailability (stringifyAvailability a) = some a := by
  have hc : a.days.all cleanDay = true := h
  have hfuel : daysNeed a.days ≤ (daysKey ++ (dayItems a.days ++ ['\x7d'])).length := by
    have h1 := daysNeed_le_len_dayItems a.days
    simp only [List.length_append]
    omega
  have hlist := parseDayList_chars a.days (daysKey ++ (dayItems a.days ++ ['\x7d'])).length
    ['\x7d'] hfuel hc
  simp only [parseAvailability, stringifyAvailability]
  rw [show (String.mk (availabilityChars a)).toList = availabilityChars a from rfl]
  conv_lhs => rw [availabilityChars, List.append_assoc]
  simp only [stripLit_append, hlist]
  simp [stripLitChars]

/-! ### C8 — availability round-trip through create-then-get -/

/-- C8, counterexample. The claim says every availability accepted by
`CreateSchedule` is returned deep-equal by a subsequent `GetSchedule` for the
same owner. When the owner already has a schedule row (creation never
enforces one-per-owner), the insert adds a second row but both lookups take
the first matching row: Alice creates `availY` on top of her pre-existing
`availX` row, and `GetSchedule` returns `availX`, not the value just
submitted. -/
theorem C8_counterexample :
    (GetSchedule (CreateSchedule dbSched hdrA ⟨"u1", some availY⟩).db "u1").out =
      .ok ⟨1, "u1", availX⟩ ∧
    availX ≠ availY := by
  exact ⟨rfl, by decide⟩

/-- C8, amended: serialize→store→deserialize is the identity — provided the
owner had no schedule row before the create (and the payload's strings stay
clear of JSON escapes, where the serialization model is exact): create
stores the JSON blob of the submitted availability and echoes it, and the
subsequent get for the same owner parses the stored blob back to a
deep-equal value. With a pre-existing row, both lookups return that earlier
row instead. -/
theorem C8_amended_roundtrip :
    ∀ (db : Db) (hdr : Option String) (r : CreateScheduleReq) (a : Availability) (u : User),
      authenticate db hdr = some u → r.availability = some a →
      r.user_id = u.id → r.user_id ≠ "" → cleanAvail a = true →
      (∀ s ∈ db.schedules, s.userId ≠ r.user_id) →
      (CreateSchedule db hdr r).out = .ok ⟨db.scheduleSeq + 1, r.user_id, a⟩ ∧
      (GetSchedule (CreateSchedule db hdr r).db r.user_id).out =
        .ok ⟨db.scheduleSeq + 1, r.user_id, a⟩ := by
  intro db hdr r a u hauth hav heq hneq hclean hno
  have hfnone : db.schedules.find? (fun s => s.userId = r.user_id) = none :=
    List.find?_eq_none.mpr (fun s hs => by simpa using hno s hs)
  have hcond : ¬(r.user_id ≠ u.id) := by simp [heq]
  have hcreate : CreateSchedule db hdr r =
      ⟨.ok ⟨db.scheduleSeq + 1, r.user_id, a⟩,
        { db with
          schedules := db.schedules ++ [⟨db.scheduleSeq + 1, r.user_id, stringifyAvailability a⟩],
          scheduleSeq := db.scheduleSeq + 1 },
        true⟩ := by
    simp only [CreateSchedule, hauth, hav]
    simp [hneq, hcond, hfnone]
  refine ⟨by rw [hcreate], ?_⟩
  rw [hcreate]
  simp [GetSchedule, hfnone, parse_stringify_availability a hclean]

/-- C8, witness: the amended round-trip applied over the sample database with
no pre-existing schedule — Alice creates `availX` and gets it back
deep-equal. -/
theorem C8_witness :
    (CreateSchedule dbMain hdrA ⟨"u1", some availX⟩).out =
      .ok ⟨dbMain.scheduleSeq + 1, "u1", availX⟩ ∧
    (GetSchedule (CreateSchedule dbMain hdrA ⟨"u1", some availX⟩).db "u1").out =
      .ok ⟨dbMain.scheduleSeq + 1, "u1", availX⟩ :=
  C8_amended_roundtrip dbMain hdrA ⟨"u1", some availX⟩ availX userA rfl rfl rfl
    (by decide) (by decide) (by decide)

end CalendlyGrpc
